import Mathlib

/-!
Shallow embedding of the KASS real-time signal pipeline (Python source) in Lean 4.

Each Python component relevant to the verified claims is translated into an
executable Lean definition over exact rationals (`ℚ` replaces Python floats;
all arithmetic appearing in the verified scenarios is exact in both worlds):

* `src/signals/flow/toxicity.py`   → `KASS.MarketFlowState`, `KASS.processTrade`
* `src/cache/state.py`             → `KASS.snapToBook`, `KASS.bookApplyDelta`, store ops
* `src/signals/aggregator/aggregator.py` → `KASS.computeComposite`, `KASS.processSignal`
* `src/signals/models.py`          → `KASS.Signal`, `KASS.Signal.isExpired`
* `src/signals/microstructure/regime.py` → `KASS.RegimeMarketState`, `KASS.regimeStep`
* `src/signals/cross_market/propagation.py` → `KASS.inferExpectedDirection`, `KASS.checkPropagation`
* `src/ingestion/ws_client.py`     → `KASS.stepSeq`
* `src/persistence/writers/trade_writer.py` → `KASS.insertTrade`

Python `dict`s are modelled as association lists with unique keys and the
dict operations (`get` with default, item assignment, `pop`); `deque(maxlen=n)`
is modelled by `dequeAppend`.
-/

namespace KASS

/-- SignalDirection enum from `src/signals/models.py`. -/
inductive SignalDirection where
  | buyYes
  | buyNo
  | neutral
  deriving DecidableEq, Repr

/-- SignalUrgency enum from `src/signals/models.py`. -/
inductive SignalUrgency where
  | immediate
  | watch
  | background
  deriving DecidableEq, Repr

/-- MarketRegime enum from `src/signals/models.py`. -/
inductive MarketRegime where
  | dead
  | quiet
  | active
  | informed
  | preSettle
  | unknown
  deriving DecidableEq, Repr

/-- The fields of `Signal` (src/signals/models.py) that the verified claims
depend on.  `metadata`, ids and event/series tickers are omitted: no claim
reads them.  `ts`/`ttl_seconds` are rationals (seconds). -/
structure Signal where
  signal_type : String
  market_ticker : String
  direction : SignalDirection
  strength : ℚ
  confidence : ℚ
  urgency : SignalUrgency
  ts : ℚ := 0
  ttl_seconds : ℚ := 300
  deriving DecidableEq, Repr

/-- `Signal.is_expired` from `src/signals/models.py`: elapsed time strictly
greater than the TTL. -/
def Signal.isExpired (now : ℚ) (s : Signal) : Bool :=
  now - s.ts > s.ttl_seconds

/-- `deque(maxlen=n)` append: keep the most recent `n` elements. -/
def dequeAppend {α : Type} (maxlen : ℕ) (xs : List α) (x : α) : List α :=
  let ys := xs ++ [x]
  ys.drop (ys.length - maxlen)

end KASS

namespace KASS

/-! ## Flow toxicity (`src/signals/flow/toxicity.py`) -/

/-- A trade as consumed by the flow processors (fields of `KalshiTrade` in
`src/models/trade.py` that the classifier reads). -/
structure Trade where
  market_ticker : String
  count : ℕ
  takerSideYes : Bool
  ts : ℚ
  deriving DecidableEq, Repr

/-- `FLOW_TOXICITY_CONFIG` from `src/signals/config.py`. -/
structure FlowConfig where
  vpin_threshold : ℚ
  rolling_vpin_threshold : ℚ
  bucket_size : ℕ
  window_size : ℕ
  burst_window_seconds : ℚ
  burst_min_trades : ℕ
  size_multiplier : ℚ
  min_market_volume : ℕ
  deriving Repr

def FLOW_TOXICITY_CONFIG : FlowConfig :=
  { vpin_threshold := 0.80
    rolling_vpin_threshold := 0.70
    bucket_size := 25
    window_size := 20
    burst_window_seconds := 5.0
    burst_min_trades := 8
    size_multiplier := 3.0
    min_market_volume := 200 }

/-- `MarketFlowState` from `src/signals/flow/toxicity.py`. -/
structure MarketFlowState where
  bucket_size : ℕ
  window_size : ℕ
  current_bucket_volume : ℕ := 0
  current_bucket_buy_volume : ℕ := 0
  bucket_vpins : List ℚ := []
  trade_timestamps : List ℚ := []
  trade_sizes : List ℕ := []
  total_volume : ℕ := 0
  total_trades : ℕ := 0
  deriving DecidableEq, Repr

/-- Fresh per-market state as allocated by `_get_or_create_state`. -/
def MarketFlowState.init (cfg : FlowConfig) : MarketFlowState :=
  { bucket_size := cfg.bucket_size, window_size := cfg.window_size }

/-- `MarketFlowState.add_trade`. -/
def MarketFlowState.addTrade (st : MarketFlowState) (t : Trade) : MarketFlowState :=
  { st with
    current_bucket_volume := st.current_bucket_volume + t.count
    current_bucket_buy_volume :=
      if t.takerSideYes then st.current_bucket_buy_volume + t.count
      else st.current_bucket_buy_volume
    trade_timestamps := dequeAppend 100 st.trade_timestamps t.ts
    trade_sizes := dequeAppend 200 st.trade_sizes t.count
    total_volume := st.total_volume + t.count
    total_trades := st.total_trades + 1 }

/-- `MarketFlowState.current_bucket_full`. -/
def MarketFlowState.currentBucketFull (st : MarketFlowState) : Bool :=
  st.current_bucket_volume ≥ st.bucket_size

/-- `MarketFlowState.compute_vpin`: `|buy_ratio - 0.5| * 2`, or `0` for an
empty bucket. -/
def MarketFlowState.computeVpin (st : MarketFlowState) : ℚ :=
  if st.current_bucket_volume = 0 then 0
  else |((st.current_bucket_buy_volume : ℚ) / st.current_bucket_volume) - 0.5| * 2

/-- `MarketFlowState.advance_bucket`: push the VPIN of the closing bucket and
reset the bucket counters. -/
def MarketFlowState.advanceBucket (st : MarketFlowState) : MarketFlowState :=
  { st with
    bucket_vpins := dequeAppend st.window_size st.bucket_vpins st.computeVpin
    current_bucket_volume := 0
    current_bucket_buy_volume := 0 }

/-- `MarketFlowState.rolling_vpin`. -/
def MarketFlowState.rollingVpin (st : MarketFlowState) : ℚ :=
  if st.bucket_vpins = [] then 0
  else st.bucket_vpins.sum / st.bucket_vpins.length

/-- `MarketFlowState.mean_trade_size`. -/
def MarketFlowState.meanTradeSize (st : MarketFlowState) : ℚ :=
  if st.trade_sizes = [] then 0
  else ((st.trade_sizes.map (fun n => (n : ℚ))).sum) / st.trade_sizes.length

/-- `MarketFlowState.detect_burst`. -/
def MarketFlowState.detectBurst (st : MarketFlowState)
    (windowSeconds : ℚ) (minTrades : ℕ) : Bool :=
  if st.trade_timestamps.length < minTrades then false
  else
    match st.trade_timestamps.getLast? with
    | none => false
    | some now =>
      (st.trade_timestamps.filter (fun t => now - t ≤ windowSeconds)).length ≥ minTrades

/-- `MarketFlowState.dominant_side`: `"yes"`, `"no"` or `"neutral"` for the
*current* bucket (60% imbalance required). -/
def MarketFlowState.dominantSide (st : MarketFlowState) : String :=
  if st.current_bucket_volume = 0 then "neutral"
  else
    let buyRatio := (st.current_bucket_buy_volume : ℚ) / st.current_bucket_volume
    if buyRatio > 0.6 then "yes"
    else if buyRatio < 0.4 then "no"
    else "neutral"

/-- `MarketFlowState.inter_arrival_rate`. -/
def MarketFlowState.interArrivalRate (st : MarketFlowState) : ℚ :=
  if st.trade_timestamps.length < 2 then 0
  else
    match st.trade_timestamps.head?, st.trade_timestamps.getLast? with
    | some first, some last =>
      let span := last - first
      if span ≤ 0 then 0 else (st.trade_timestamps.length : ℚ) / span
    | _, _ => 0

/-- `FlowToxicityClassifier._create_toxicity_signal`.  Note the direction is
read from `dominant_side` of the state *as passed in*. -/
def createToxicitySignal (cfg : FlowConfig) (ticker : String) (vpin : ℚ)
    (st : MarketFlowState) : Signal :=
  { signal_type := "flow_toxicity"
    market_ticker := ticker
    direction :=
      if st.dominantSide = "yes" then SignalDirection.buyYes
      else if st.dominantSide = "no" then SignalDirection.buyNo
      else SignalDirection.neutral
    strength := min 1 vpin
    confidence := min 1 (0.5 + ((st.bucket_vpins.length : ℚ) / cfg.window_size) * 0.3)
    urgency := if vpin > 0.85 then SignalUrgency.immediate else SignalUrgency.watch }

/-- `FlowToxicityClassifier._create_rolling_toxicity_signal`. -/
def createRollingToxicitySignal (ticker : String) (st : MarketFlowState) : Signal :=
  { signal_type := "flow_toxicity"
    market_ticker := ticker
    direction :=
      if st.dominantSide = "yes" then SignalDirection.buyYes
      else if st.dominantSide = "no" then SignalDirection.buyNo
      else SignalDirection.neutral
    strength := min 1 st.rollingVpin
    confidence := 0.7
    urgency := SignalUrgency.watch }

/-- `FlowToxicityClassifier._create_burst_signal`. -/
def createBurstSignal (ticker : String) (st : MarketFlowState) : Signal :=
  { signal_type := "flow_burst"
    market_ticker := ticker
    direction :=
      if st.dominantSide = "yes" then SignalDirection.buyYes
      else if st.dominantSide = "no" then SignalDirection.buyNo
      else SignalDirection.neutral
    strength := min 1 (st.interArrivalRate / 10)
    confidence := min 0.8 (0.3 + st.interArrivalRate / 20)
    urgency := SignalUrgency.immediate }

/-- `FlowToxicityClassifier._create_large_trade_signal`. -/
def createLargeTradeSignal (cfg : FlowConfig) (ticker : String) (t : Trade)
    (st : MarketFlowState) : Signal :=
  { signal_type := "flow_large_trade"
    market_ticker := ticker
    direction :=
      if t.takerSideYes then SignalDirection.buyYes else SignalDirection.buyNo
    strength := min 1 ((t.count : ℚ) / (st.meanTradeSize * cfg.size_multiplier * 2))
    confidence :=
      min 0.85 (0.4 + ((t.count : ℚ) / st.meanTradeSize) / (cfg.size_multiplier * 4))
    urgency := SignalUrgency.watch }

/-- `FlowToxicityClassifier.process_message` for a single market: the
illiquidity check runs *before* `add_trade`; the volume bucket is advanced
*before* the toxicity signal is built. -/
def processTrade (cfg : FlowConfig) (st : MarketFlowState) (t : Trade) :
    MarketFlowState × List Signal :=
  if st.total_volume < cfg.min_market_volume ∧ st.total_trades > 10 then (st, [])
  else
    let s1 := st.addTrade t
    let (s2, bucketSignals) :=
      if s1.currentBucketFull then
        let vpin := s1.computeVpin
        let s2 := s1.advanceBucket
        let sigs1 :=
          if vpin > cfg.vpin_threshold then
            [createToxicitySignal cfg t.market_ticker vpin s2]
          else []
        let sigs2 :=
          if s2.rollingVpin > cfg.rolling_vpin_threshold ∧ s2.bucket_vpins.length ≥ 5 then
            [createRollingToxicitySignal t.market_ticker s2]
          else []
        (s2, sigs1 ++ sigs2)
      else (s1, [])
    let burstSignals :=
      if s2.detectBurst cfg.burst_window_seconds cfg.burst_min_trades then
        [createBurstSignal t.market_ticker s2]
      else []
    let largeSignals :=
      if s2.meanTradeSize > 0 ∧ (t.count : ℚ) > s2.meanTradeSize * cfg.size_multiplier then
        [createLargeTradeSignal cfg t.market_ticker t s2]
      else []
    (s2, bucketSignals ++ burstSignals ++ largeSignals)

/-- Fold `processTrade` over a trade stream, accumulating all emitted
signals in order. -/
def runToxicity (cfg : FlowConfig) (st : MarketFlowState) (trades : List Trade) :
    MarketFlowState × List Signal :=
  trades.foldl
    (fun acc t =>
      let (st1, sigs) := processTrade cfg acc.1 t
      (st1, acc.2 ++ sigs))
    (st, [])

/-! ## Python dict operations

A Python `dict` is modelled as an association list whose keys are unique (all
dicts in the embedded code are built from `{}` by item assignment and `pop`,
which preserve key uniqueness).  `dictGet` is `d.get(k)`, `dictSet` is
`d[k] = v`, `dictPop` is `d.pop(k, None)`. -/

def dictGet {κ α : Type} [DecidableEq κ] : List (κ × α) → κ → Option α
  | [], _ => none
  | e :: es, k => if e.1 = k then some e.2 else dictGet es k

def dictSet {κ α : Type} [DecidableEq κ] : List (κ × α) → κ → α → List (κ × α)
  | [], k, v => [(k, v)]
  | e :: es, k, v => if e.1 = k then (k, v) :: es else e :: dictSet es k v

def dictPop {κ α : Type} [DecidableEq κ] : List (κ × α) → κ → List (κ × α)
  | [], _ => []
  | e :: es, k => if e.1 = k then es else e :: dictPop es k

/-- Key uniqueness: the invariant every Python dict satisfies. -/
def KeysUnique {κ α : Type} (d : List (κ × α)) : Prop :=
  (d.map Prod.fst).Nodup

/-! ## Orderbook state (`src/cache/state.py`) -/

/-- The stored orderbook for one market: JSON
`{market_ticker, yes: {price→qty}, no: {price→qty}}`. -/
structure Book where
  market_ticker : String
  yes : List (ℕ × ℤ)
  no : List (ℕ × ℤ)
  deriving DecidableEq, Repr

/-- `OrderbookSnapshot` (src/models/orderbook.py): `[price, qty]` level lists. -/
structure Snapshot where
  market_ticker : String
  yes : List (ℕ × ℤ)
  no : List (ℕ × ℤ)
  deriving DecidableEq, Repr

/-- `OrderbookDelta` fields used by `apply_delta`. -/
structure BookDelta where
  market_ticker : String
  price : ℕ
  delta : ℤ
  sideYes : Bool
  deriving DecidableEq, Repr

/-- One side of `apply_snapshot`'s book construction:
`{str(level[0]): level[1] for level in side}` (later duplicates overwrite). -/
def snapSideToDict (levels : List (ℕ × ℤ)) : List (ℕ × ℤ) :=
  levels.foldl (fun d l => dictSet d l.1 l.2) []

/-- The book built by `OrderbookStateManager.apply_snapshot`. -/
def snapToBook (s : Snapshot) : Book :=
  { market_ticker := s.market_ticker
    yes := snapSideToDict s.yes
    no := snapSideToDict s.no }

/-- Core of `OrderbookStateManager.apply_delta`:
`current = side.get(key, 0); new = current + delta;` then remove when
`new ≤ 0`, else store. -/
def sideApplyDelta (side : List (ℕ × ℤ)) (price : ℕ) (delta : ℤ) : List (ℕ × ℤ) :=
  let currentQty := (dictGet side price).getD 0
  let newQty := currentQty + delta
  if newQty ≤ 0 then dictPop side price else dictSet side price newQty

/-- `apply_delta` on a stored book. -/
def bookApplyDelta (b : Book) (d : BookDelta) : Book :=
  if d.sideYes then { b with yes := sideApplyDelta b.yes d.price d.delta }
  else { b with no := sideApplyDelta b.no d.price d.delta }

/-- The Redis keyspace `state:orderbook:{ticker}`, one entry per market. -/
def OrderbookStore := List (String × Book)

/-- `OrderbookStateManager.apply_snapshot`: replace the whole book. -/
def applySnapshot (store : List (String × Book)) (s : Snapshot) :
    List (String × Book) :=
  dictSet store s.market_ticker (snapToBook s)

/-- `OrderbookStateManager.apply_delta`: a delta for a ticker with no stored
book is dropped (warning logged); otherwise read, mutate, write back. -/
def applyDelta (store : List (String × Book)) (d : BookDelta) :
    List (String × Book) :=
  match dictGet store d.market_ticker with
  | none => store
  | some book => dictSet store d.market_ticker (bookApplyDelta book d)

/-! ## WebSocket sequence tracking (`src/ingestion/ws_client.py`) -/

/-- The gap warning logged by `_message_loop` (`expected`/`received`). -/
structure GapLog where
  expected : ℤ
  received : ℤ
  deriving DecidableEq, Repr

/-- `KalshiWSManager._detect_sequence_gap`. -/
def detectSequenceGap (seqs : List (ℤ × ℤ)) (sid seq : ℤ) : Bool :=
  match dictGet seqs sid with
  | none => false
  | some last => seq > last + 1

/-- The `(sid, seq)` tracking block of `KalshiWSManager._message_loop`:
log a gap when `_detect_sequence_gap` fires (with
`expected = last_seen.get(sid, 0) + 1`, `received = seq`), then always
record `seq`.  No replay command exists in the source; the step's only
outputs are the updated table and the optional log. -/
def stepSeq (seqs : List (ℤ × ℤ)) (sid seq : ℤ) :
    List (ℤ × ℤ) × Option GapLog :=
  let log :=
    if detectSequenceGap seqs sid seq then
      some { expected := (dictGet seqs sid).getD 0 + 1, received := seq }
    else none
  (dictSet seqs sid seq, log)

/-- Fold `stepSeq` over a stream of `(sid, seq)` messages, collecting the
per-message gap logs. -/
def runSeq (seqs : List (ℤ × ℤ)) (msgs : List (ℤ × ℤ)) :
    List (ℤ × ℤ) × List (Option GapLog) :=
  msgs.foldl
    (fun acc m =>
      let (s1, log) := stepSeq acc.1 m.1 m.2
      (s1, acc.2 ++ [log]))
    (seqs, [])

/-! ## Trade persistence (`src/persistence/writers/trade_writer.py`) -/

/-- A row of the `trades` table (columns of `KalshiTrade.to_db_row`). -/
structure TradeRow where
  trade_id : String
  market_ticker : String
  yes_price : ℤ
  no_price : ℤ
  count : ℚ
  taker_side_yes : Bool
  ts : ℚ
  deriving DecidableEq, Repr

/-- Modelled from the spec: the `trades` table schema
(`trades(ts, trade_id PK, …)`, §6 of the spec) is not under `src/`; its
primary key on `trade_id` makes the writer's
`INSERT … ON CONFLICT DO NOTHING` (in `TradeWriter._flush_batch`) a no-op
whenever a row with the same `trade_id` already exists. -/
def insertTrade (tbl : List TradeRow) (r : TradeRow) : List TradeRow :=
  if tbl.any (fun x => x.trade_id == r.trade_id) then tbl else tbl ++ [r]

/-- `TradeWriter._flush_batch`: insert the batch row by row. -/
def flushBatch (tbl : List TradeRow) (rows : List TradeRow) : List TradeRow :=
  rows.foldl insertTrade tbl

/-- `SELECT count(*) FROM trades WHERE trade_id = id`. -/
def countTradeId (tbl : List TradeRow) (id : String) : ℕ :=
  (tbl.filter (fun x => x.trade_id == id)).length

/-! ## Signal aggregator (`src/signals/aggregator/aggregator.py`) -/

/-- `SIGNAL_WEIGHTS` table, with the `.get(type, 0.1)` default. -/
def SIGNAL_WEIGHTS (t : String) : ℚ :=
  if t = "flow_toxicity" then 0.35
  else if t = "flow_burst" then 0.08
  else if t = "flow_large_trade" then 0.05
  else if t = "oi_divergence" then 0.30
  else if t = "cross_market_propagation" then 0.15
  else if t = "signal_propagation" then 0.10
  else if t = "settlement_cascade" then 0.15
  else if t = "new_market_open" then 0.02
  else if t = "new_market_extreme_price" then 0.05
  else if t = "regime_change" then 0.05
  else 0.1

/-- `REGIME_MODIFIERS` with the `.get(type, 1.0)` default; a regime with no
table (`UNKNOWN`) gives `{}`, hence `1.0` everywhere. -/
def regimeModifier (r : MarketRegime) (t : String) : ℚ :=
  match r with
  | MarketRegime.dead =>
    if t = "flow_toxicity" then 0.5
    else if t = "oi_divergence" then 0.7
    else if t = "cross_market_propagation" then 1.2
    else 1
  | MarketRegime.quiet =>
    if t = "flow_toxicity" then 0.8
    else if t = "oi_divergence" then 0.9
    else if t = "cross_market_propagation" then 1.1
    else 1
  | MarketRegime.active =>
    if t = "flow_toxicity" then 1.0
    else if t = "oi_divergence" then 1.0
    else if t = "cross_market_propagation" then 1.0
    else 1
  | MarketRegime.informed =>
    if t = "flow_toxicity" then 1.5
    else if t = "oi_divergence" then 1.3
    else if t = "cross_market_propagation" then 0.8
    else 1
  | MarketRegime.preSettle =>
    if t = "flow_toxicity" then 0.8
    else if t = "oi_divergence" then 0.5
    else if t = "cross_market_propagation" then 1.0
    else 1
  | MarketRegime.unknown => 1

/-- `weight = base_weight * regime_mod * signal.confidence`. -/
def signalWeight (r : MarketRegime) (s : Signal) : ℚ :=
  SIGNAL_WEIGHTS s.signal_type * regimeModifier r s.signal_type * s.confidence

/-- `direction_mult`. -/
def directionMult : SignalDirection → ℚ
  | SignalDirection.buyYes => 1
  | SignalDirection.buyNo => -1
  | SignalDirection.neutral => 0

/-- The `weighted_sum` accumulator of `_compute_composite`. -/
def weightedSum (r : MarketRegime) (active : List Signal) : ℚ :=
  (active.map (fun s => s.strength * directionMult s.direction * signalWeight r s)).sum

/-- The `total_weight` accumulator of `_compute_composite`. -/
def totalWeight (r : MarketRegime) (active : List Signal) : ℚ :=
  (active.map (fun s => signalWeight r s)).sum

/-- Python 3 `round` to an integer: round-half-to-even. -/
def roundHalfEven (x : ℚ) : ℤ :=
  let f := ⌊x⌋
  let r := x - f
  if r < 1/2 then f
  else if 1/2 < r then f + 1
  else if f % 2 = 0 then f else f + 1

/-- Python `round(x, 4)`. -/
def round4 (x : ℚ) : ℚ :=
  (roundHalfEven (x * 10000) : ℚ) / 10000

/-- `AGGREGATOR_CONFIG` from `src/signals/config.py` (fields read by
`process_message`; `cleanup_interval` drives a background task that is not
part of the per-message step). -/
structure AggConfig where
  min_composite_score : ℚ
  max_active_signals_per_market : ℕ
  publish_cooldown : ℚ
  deriving Repr

def AGGREGATOR_CONFIG : AggConfig :=
  { min_composite_score := 0.4
    max_active_signals_per_market := 20
    publish_cooldown := 10 }

/-- `CompositeSignal` fields the claims read (ids, event/series tickers and
`suggested_size` omitted). -/
structure Composite where
  market_ticker : String
  direction : SignalDirection
  composite_score : ℚ
  active_signals : List Signal
  regime : MarketRegime
  deriving DecidableEq, Repr

/-- `SignalAggregator._compute_composite`: `None` on an empty list or zero
total weight; otherwise clamp the weighted mean to `[-1, 1]`, derive the
direction from the unrounded score with the ±0.1 dead-zone, and store
`round(composite_score, 4)`. -/
def computeComposite (regime : MarketRegime) (ticker : String)
    (active : List Signal) : Option Composite :=
  if active = [] then none
  else
    let ws := weightedSum regime active
    let tw := totalWeight regime active
    if tw = 0 then none
    else
      let score := max (-1) (min 1 (ws / tw))
      let dir :=
        if score > 0.1 then SignalDirection.buyYes
        else if score < -0.1 then SignalDirection.buyNo
        else SignalDirection.neutral
      some
        { market_ticker := ticker
          direction := dir
          composite_score := round4 score
          active_signals := active
          regime := regime }

/-- The aggregator's per-market state: `active_signals[ticker]` and
`last_composite_publish[ticker]` (`none` = never published, read as 0). -/
structure AggMarketState where
  active : List Signal := []
  lastPub : Option ℚ := none
  deriving DecidableEq, Repr

/-- `SignalAggregator.process_message` for one market: append, cap to the
20 most recent, prune expired, apply the publish cooldown, compute the
composite and publish it iff `|composite_score| ≥ min_composite_score`.

Returns (new state, composite computed this step if any, published?). -/
def processSignal (cfg : AggConfig) (now : ℚ) (regime : MarketRegime)
    (ticker : String) (st : AggMarketState) (sig : Signal) :
    AggMarketState × Option Composite × Bool :=
  let l0 := st.active ++ [sig]
  let l1 :=
    if l0.length > cfg.max_active_signals_per_market then
      l0.drop (l0.length - cfg.max_active_signals_per_market)
    else l0
  let l2 := l1.filter (fun s => ¬ s.isExpired now)
  if now - st.lastPub.getD 0 < cfg.publish_cooldown then
    ({ active := l2, lastPub := st.lastPub }, none, false)
  else
    match computeComposite regime ticker l2 with
    | none => ({ active := l2, lastPub := st.lastPub }, none, false)
    | some c =>
      if |c.composite_score| ≥ cfg.min_composite_score then
        ({ active := l2, lastPub := some now }, some c, true)
      else
        ({ active := l2, lastPub := st.lastPub }, some c, false)

/-! ## Regime detector (`src/signals/microstructure/regime.py`) -/

/-- `REGIME_CONFIG` from `src/signals/config.py`. -/
structure RegimeConfig where
  publish_interval : ℚ
  dead_trade_rate : ℚ
  dead_message_rate : ℚ
  informed_imbalance : ℚ
  informed_trade_rate : ℚ
  active_trade_rate : ℚ
  pre_settle_price_threshold : ℤ
  pre_settle_trade_rate : ℚ
  deriving Repr

def REGIME_CONFIG : RegimeConfig :=
  { publish_interval := 30
    dead_trade_rate := 0.2
    dead_message_rate := 0.1
    informed_imbalance := 0.6
    informed_trade_rate := 5
    active_trade_rate := 2
    pre_settle_price_threshold := 5
    pre_settle_trade_rate := 2 }

/-- `RegimeMarketState`: the fields `classify` and the emitted signal read
(`current_spread`, `depth_ratio`, the price deque and `regime_history` are
maintained by the source but never read by the classification or emission
logic, and are omitted). -/
structure RegimeMarketState where
  yes_depth : ℤ := 0
  no_depth : ℤ := 0
  delta_timestamps : List ℚ := []
  trade_timestamps : List ℚ := []
  last_price : Option ℤ := none
  previous_regime : MarketRegime := MarketRegime.unknown
  deriving DecidableEq, Repr

/-- `update_from_delta` (timestamps are wall-clock `time.time()`,
passed here as `now`). -/
def RegimeMarketState.updateFromDelta (st : RegimeMarketState) (now : ℚ)
    (sideYes : Bool) (deltaQty : ℤ) : RegimeMarketState :=
  { st with
    delta_timestamps := dequeAppend 200 st.delta_timestamps now
    yes_depth := if sideYes then max 0 (st.yes_depth + deltaQty) else st.yes_depth
    no_depth := if sideYes then st.no_depth else max 0 (st.no_depth + deltaQty) }

/-- `update_from_trade`. -/
def RegimeMarketState.updateFromTrade (st : RegimeMarketState) (now : ℚ)
    (yesPrice : ℤ) : RegimeMarketState :=
  { st with
    trade_timestamps := dequeAppend 200 st.trade_timestamps now
    last_price := some yesPrice }

/-- `update_from_ticker`. -/
def RegimeMarketState.updateFromTicker (st : RegimeMarketState)
    (price : Option ℤ) : RegimeMarketState :=
  match price with
  | some p => { st with last_price := some p }
  | none => st

/-- `message_rate`: messages in the last 60 s / 60. -/
def RegimeMarketState.messageRate (st : RegimeMarketState) (now : ℚ) : ℚ :=
  (((st.delta_timestamps ++ st.trade_timestamps).filter
    (fun t => now - t ≤ 60)).length : ℚ) / 60

/-- `trade_rate`: trades in the last 300 s / 5. -/
def RegimeMarketState.tradeRate (st : RegimeMarketState) (now : ℚ) : ℚ :=
  ((st.trade_timestamps.filter (fun t => now - t ≤ 300)).length : ℚ) / 5

/-- `depth_imbalance`. -/
def RegimeMarketState.depthImbalance (st : RegimeMarketState) : ℚ :=
  let total := st.yes_depth + st.no_depth
  if total = 0 then 0 else ((st.yes_depth - st.no_depth : ℤ) : ℚ) / (total : ℚ)

/-- `RegimeMarketState.classify`, first match wins; a near-extreme price
without the pre-settle trade rate falls through to the later checks. -/
def RegimeMarketState.classify (st : RegimeMarketState) (cfg : RegimeConfig)
    (now : ℚ) : MarketRegime :=
  let preSettle : Bool :=
    match st.last_price with
    | some p =>
      decide ((p ≤ cfg.pre_settle_price_threshold ∨
        p ≥ 100 - cfg.pre_settle_price_threshold) ∧
        st.tradeRate now > cfg.pre_settle_trade_rate)
    | none => false
  if preSettle then MarketRegime.preSettle
  else if st.tradeRate now < cfg.dead_trade_rate ∧
      st.messageRate now < cfg.dead_message_rate then MarketRegime.dead
  else if |st.depthImbalance| > cfg.informed_imbalance ∧
      st.tradeRate now > cfg.informed_trade_rate then MarketRegime.informed
  else if st.tradeRate now > cfg.active_trade_rate ∧
      st.messageRate now > 0.5 then MarketRegime.active
  else MarketRegime.quiet

/-- `RegimeDetector._create_regime_signal`. -/
def createRegimeSignal (ticker : String) (regime : MarketRegime) : Signal :=
  { signal_type := "regime_change"
    market_ticker := ticker
    direction := SignalDirection.neutral
    strength := 0.5
    confidence := 0.8
    urgency :=
      if regime = MarketRegime.informed then SignalUrgency.immediate
      else SignalUrgency.background }

/-- An input message of the detector (the fields each `update_from_*` reads). -/
inductive RegimeMsg where
  | delta (sideYes : Bool) (qty : ℤ)
  | trade (yesPrice : ℤ)
  | ticker (price : Option ℤ)
  deriving DecidableEq, Repr

/-- Per-market detector state: rolling features plus
`last_regime_publish[ticker]` (`none` read as 0). -/
structure RegimeDetectorState where
  market : RegimeMarketState := {}
  lastPublish : Option ℚ := none
  deriving DecidableEq, Repr

/-- The dispatch of `RegimeDetector.process_message` to the `update_from_*`
method matching the message's stream. -/
def regimeUpdate (st : RegimeMarketState) (now : ℚ) (m : RegimeMsg) :
    RegimeMarketState :=
  match m with
  | RegimeMsg.delta sideYes qty => st.updateFromDelta now sideYes qty
  | RegimeMsg.trade p => st.updateFromTrade now p
  | RegimeMsg.ticker p => st.updateFromTicker p

/-- One `process_message` step of `RegimeDetector` for one market: update the
rolling state, rate-limit by `publish_interval`, classify, and emit a
`regime_change` signal only when the regime differs from the previous one.
The third component is the classification performed this step (`none` when
rate-limited), used to express hypotheses about classification traces. -/
def regimeStep (cfg : RegimeConfig) (ticker : String)
    (st : RegimeDetectorState) (now : ℚ) (m : RegimeMsg) :
    RegimeDetectorState × List Signal × Option MarketRegime :=
  let ms := regimeUpdate st.market now m
  if now - st.lastPublish.getD 0 < cfg.publish_interval then
    ({ market := ms, lastPublish := st.lastPublish }, [], none)
  else
    let regime := ms.classify cfg now
    if regime ≠ ms.previous_regime then
      ({ market := { ms with previous_regime := regime }, lastPublish := some now },
        [createRegimeSignal ticker regime], some regime)
    else
      ({ market := ms, lastPublish := some now }, [], some regime)

/-- Run `regimeStep` over a message stream, collecting the emitted signals
and the trace of performed classifications. -/
def runRegime (cfg : RegimeConfig) (ticker : String) :
    RegimeDetectorState → List (ℚ × RegimeMsg) →
    RegimeDetectorState × List Signal × List (Option MarketRegime)
  | st, [] => (st, [], [])
  | st, m :: ms =>
    let step := regimeStep cfg ticker st m.1 m.2
    let rest := runRegime cfg ticker step.1 ms
    (rest.1, step.2.1 ++ rest.2.1, step.2.2 :: rest.2.2)

/-! ## Cross-market propagation (`src/signals/cross_market/propagation.py`) -/

/-- Threshold types produced by `_parse_threshold`. -/
inductive ThreshType where
  | above
  | below
  | between
  deriving DecidableEq, Repr

/-- `move_direction`: `"up"` when the new price is higher, else `"down"`. -/
inductive MoveDir where
  | up
  | down
  deriving DecidableEq, Repr

/-- `CROSS_MARKET_CONFIG` from `src/signals/config.py` (attenuation fields
omitted: they belong to `_check_signal_propagation`, which no claim covers). -/
structure CrossConfig where
  min_price_move : ℤ
  propagation_window : ℚ
  max_related_markets : ℕ
  min_source_strength : ℚ
  deriving Repr

def CROSS_MARKET_CONFIG : CrossConfig :=
  { min_price_move := 3
    propagation_window := 30
    max_related_markets := 20
    min_source_strength := 0.5 }

/-- `CrossMarketPropagationEngine._infer_expected_direction` over the parsed
`_threshold_cache` (`none` = unparseable or unseen title).  Returns `none`
when either threshold is missing, when the types differ, when the values are
equal, or when the shared type is `between`. -/
def inferExpectedDirection (cache : String → Option (ThreshType × ℚ))
    (source target : String) (dir : MoveDir) : Option SignalDirection :=
  match cache source, cache target with
  | some sourceThresh, some targetThresh =>
    if sourceThresh.1 ≠ targetThresh.1 then none
    else if sourceThresh.2 = targetThresh.2 then none
    else
      match sourceThresh.1 with
      | ThreshType.above =>
        some (if dir = MoveDir.up then SignalDirection.buyYes else SignalDirection.buyNo)
      | ThreshType.below =>
        some (if dir = MoveDir.up then SignalDirection.buyYes else SignalDirection.buyNo)
      | ThreshType.between => none
  | _, _ => none

/-- The signal emitted per eligible related market in `_check_propagation`. -/
def mkPropagationSignal (related : String) (dir : SignalDirection)
    (magnitude : ℤ) : Signal :=
  { signal_type := "cross_market_propagation"
    market_ticker := related
    direction := dir
    strength := min 1 ((magnitude : ℚ) / 10)
    confidence := 0.65
    urgency := SignalUrgency.immediate }

/-- `CrossMarketPropagationEngine._check_propagation`: with more than
`max_related_markets` related markets (or none) nothing is emitted; otherwise
each related market other than the source that has a known price, has not
moved inside the propagation window, and has an inferable direction receives
one signal.  `movedAt` is the wall-clock time just recorded for the source's
move; `moveTs` is `price_move_timestamps` (`.get(r, 0)`). -/
def checkPropagation (cfg : CrossConfig)
    (thresholds : String → Option (ThreshType × ℚ))
    (marketPrices : String → Option ℤ) (moveTs : String → Option ℚ)
    (related : List String) (movedTicker : String) (oldPrice newPrice : ℤ)
    (movedAt : ℚ) : List Signal :=
  if related = [] ∨ related.length > cfg.max_related_markets then []
  else
    let dir : MoveDir := if newPrice > oldPrice then MoveDir.up else MoveDir.down
    let magnitude : ℤ := |newPrice - oldPrice|
    related.filterMap (fun r =>
      if r = movedTicker then none
      else
        match marketPrices r with
        | none => none
        | some _ =>
          if movedAt - (moveTs r).getD 0 > cfg.propagation_window then
            match inferExpectedDirection thresholds movedTicker r dir with
            | some d => some (mkPropagationSignal r d magnitude)
            | none => none
          else none)

/-- The claim-side property "no level with quantity ≤ 0 is present". -/
def sidePositive (side : List (ℕ × ℤ)) : Prop :=
  ∀ e ∈ side, 0 < e.2

/-- Both sides of a stored book hold only positive quantities. -/
def bookPositive (b : Book) : Prop :=
  sidePositive b.yes ∧ sidePositive b.no

end KASS

namespace KASS

/-! ## Dictionary lemmas -/

theorem dictGet_dictSet_self {κ α : Type} [DecidableEq κ]
    (d : List (κ × α)) (k : κ) (v : α) :
    dictGet (dictSet d k v) k = some v := by
  induction d with
  | nil => simp [dictSet, dictGet]
  | cons e es ih =>
    by_cases h : e.1 = k
    · simp [dictSet, h, dictGet]
    · simp [dictSet, h, dictGet, ih]

theorem dictGet_dictSet_ne {κ α : Type} [DecidableEq κ]
    (d : List (κ × α)) (k q : κ) (v : α) (hq : q ≠ k) :
    dictGet (dictSet d k v) q = dictGet d q := by
  have hkq : ¬ (k = q) := fun hh => hq hh.symm
  induction d with
  | nil => simp [dictSet, dictGet, hkq]
  | cons e es ih =>
    by_cases h : e.1 = k
    · have heq : ¬ (e.1 = q) := by
        intro hh
        rw [h] at hh
        exact hq hh.symm
      simp [dictSet, h, dictGet, hkq, heq]
    · by_cases h2 : e.1 = q
      · simp [dictSet, h, dictGet, h2, hq]
      · simp [dictSet, h, dictGet, h2, ih]

theorem dictGet_dictPop_ne {κ α : Type} [DecidableEq κ]
    (d : List (κ × α)) (k q : κ) (hq : q ≠ k) :
    dictGet (dictPop d k) q = dictGet d q := by
  induction d with
  | nil => simp [dictPop]
  | cons e es ih =>
    by_cases h : e.1 = k
    · simp only [dictPop, if_pos h, dictGet]
      rw [if_neg]
      intro h1
      exact hq (h1 ▸ h)
    · simp only [dictPop, if_neg h, dictGet]
      by_cases h2 : e.1 = q
      · simp [h2]
      · simp [h2, ih]

theorem dictGet_eq_none_of_not_mem {κ α : Type} [DecidableEq κ]
    {d : List (κ × α)} {k : κ} (h : k ∉ d.map Prod.fst) :
    dictGet d k = none := by
  induction d with
  | nil => simp [dictGet]
  | cons e es ih =>
    rw [List.map_cons, List.mem_cons] at h
    push_neg at h
    rw [dictGet, if_neg (fun hh => h.1 hh.symm)]
    exact ih h.2

theorem dictGet_dictPop_self {κ α : Type} [DecidableEq κ]
    (d : List (κ × α)) (k : κ) (hu : KeysUnique d) :
    dictGet (dictPop d k) k = none := by
  induction d with
  | nil => simp [dictPop, dictGet]
  | cons e es ih =>
    rw [KeysUnique, List.map_cons, List.nodup_cons] at hu
    by_cases h : e.1 = k
    · rw [dictPop, if_pos h]
      apply dictGet_eq_none_of_not_mem
      rw [← h]
      exact hu.1
    · rw [dictPop, if_neg h, dictGet, if_neg h]
      exact ih hu.2

theorem mem_dictSet {κ α : Type} [DecidableEq κ]
    {d : List (κ × α)} {k : κ} {v : α} {e : κ × α}
    (h : e ∈ dictSet d k v) : e = (k, v) ∨ e ∈ d := by
  induction d with
  | nil => simpa [dictSet] using h
  | cons f fs ih =>
    by_cases hf : f.1 = k
    · rw [dictSet, if_pos hf] at h
      rcases List.mem_cons.mp h with h1 | h1
      · exact Or.inl h1
      · exact Or.inr (List.mem_cons_of_mem _ h1)
    · rw [dictSet, if_neg hf] at h
      rcases List.mem_cons.mp h with h1 | h1
      · exact Or.inr (h1 ▸ List.mem_cons_self _ _)
      · rcases ih h1 with h2 | h2
        · exact Or.inl h2
        · exact Or.inr (List.mem_cons_of_mem _ h2)

theorem mem_dictPop {κ α : Type} [DecidableEq κ]
    {d : List (κ × α)} {k : κ} {e : κ × α}
    (h : e ∈ dictPop d k) : e ∈ d := by
  induction d with
  | nil => simp [dictPop] at h
  | cons f fs ih =>
    by_cases hf : f.1 = k
    · rw [dictPop, if_pos hf] at h
      exact List.mem_cons_of_mem _ h
    · rw [dictPop, if_neg hf] at h
      rcases List.mem_cons.mp h with h1 | h1
      · exact h1 ▸ List.mem_cons_self _ _
      · exact List.mem_cons_of_mem _ (ih h1)

/-! ## Orderbook lemmas -/

theorem sidePositive_sideApplyDelta {side : List (ℕ × ℤ)} {p : ℕ} {δ : ℤ}
    (h : sidePositive side) : sidePositive (sideApplyDelta side p δ) := by
  intro e he
  rw [sideApplyDelta] at he
  by_cases hz : (dictGet side p).getD 0 + δ ≤ 0
  · rw [if_pos hz] at he
    exact h e (mem_dictPop he)
  · rw [if_neg hz] at he
    rcases mem_dictSet he with h1 | h1
    · rw [h1]
      exact lt_of_not_le hz
    · exact h e h1

theorem sidePositive_snapSideToDict {levels : List (ℕ × ℤ)}
    (h : ∀ l ∈ levels, 0 < l.2) : sidePositive (snapSideToDict levels) := by
  have main : ∀ (ls : List (ℕ × ℤ)) (acc : List (ℕ × ℤ)),
      (∀ l ∈ ls, 0 < l.2) → sidePositive acc →
      sidePositive (ls.foldl (fun d l => dictSet d l.1 l.2) acc) := by
    intro ls
    induction ls with
    | nil => intro acc _ hacc; exact hacc
    | cons l ls ih =>
      intro acc hls hacc
      refine ih _ (fun x hx => hls x (List.mem_cons_of_mem _ hx)) ?_
      intro e he
      rcases mem_dictSet he with h1 | h1
      · rw [h1]
        exact hls l (List.mem_cons_self _ _)
      · exact hacc e h1
  exact main levels [] h (by intro e he; simp at he)

theorem bookPositive_bookApplyDelta {b : Book} {d : BookDelta}
    (h : bookPositive b) : bookPositive (bookApplyDelta b d) := by
  rcases h with ⟨hy, hn⟩
  rw [bookApplyDelta]
  by_cases hs : d.sideYes
  · rw [if_pos hs]
    exact ⟨sidePositive_sideApplyDelta hy, hn⟩
  · rw [if_neg hs]
    exact ⟨hy, sidePositive_sideApplyDelta hn⟩

theorem bookPositive_foldl {ds : List BookDelta} :
    ∀ {b : Book}, bookPositive b →
      bookPositive (ds.foldl bookApplyDelta b) := by
  induction ds with
  | nil => intro b hb; exact hb
  | cons d ds ih =>
    intro b hb
    exact ih (bookPositive_bookApplyDelta hb)

theorem foldl_applyDelta_get (T : String) (ds : List BookDelta)
    (h : ∀ d ∈ ds, d.market_ticker = T) :
    ∀ (store : List (String × Book)) (book : Book),
      dictGet store T = some book →
      dictGet (ds.foldl applyDelta store) T =
        some (ds.foldl bookApplyDelta book) := by
  induction ds with
  | nil => intro store book hb; exact hb
  | cons d ds ih =>
    intro store book hb
    have hT : d.market_ticker = T := h d (List.mem_cons_self _ _)
    have hstep : applyDelta store d =
        dictSet store T (bookApplyDelta book d) := by
      rw [applyDelta, hT, hb]
    rw [List.foldl_cons, List.foldl_cons, hstep]
    exact ih (fun x hx => h x (List.mem_cons_of_mem _ hx)) _ _
      (dictGet_dictSet_self _ _ _)

/-! ## Claim C2 -/

/-- C2 counterexample: the claim asserts that after `snapshot → delta*` no
level with quantity ≤ 0 is ever present, for *any* snapshot.  But
`apply_snapshot` stores snapshot levels verbatim: a snapshot carrying the
level `[5, 0]` leaves a quantity-0 level in the stored book. -/
theorem C2_counterexample :
    dictGet (applySnapshot ([] : List (String × Book))
        { market_ticker := "M1", yes := [(5, 0)], no := [] }) ("M1") =
      some { market_ticker := "M1", yes := [(5, 0)], no := [] } ∧
    ¬ sidePositive [((5 : ℕ), (0 : ℤ))] := by
  constructor
  · decide
  · intro h
    exact absurd (h (5, 0) (List.mem_singleton.mpr rfl)) (by decide)

/-- C2 (amended): after `apply_snapshot` the stored book is the snapshot as
a price→qty map; `apply_delta` with no stored book is a no-op; `apply_delta`
updates exactly the addressed (side, price) entry to old + delta (missing =
0, entry removed when the new quantity is ≤ 0, others untouched); the book
reached by `snapshot → delta*` is the snapshot with the deltas folded in;
and — provided every snapshot level has positive quantity — no level with
quantity ≤ 0 is ever present. -/
theorem C2_orderbook_reconstruction :
    (∀ (store : List (String × Book)) (s : Snapshot),
        dictGet (applySnapshot store s) s.market_ticker = some (snapToBook s)) ∧
    (∀ (store : List (String × Book)) (d : BookDelta),
        dictGet store d.market_ticker = none → applyDelta store d = store) ∧
    (∀ (side : List (ℕ × ℤ)) (p q : ℕ) (δ : ℤ), KeysUnique side →
        dictGet (sideApplyDelta side p δ) q =
          if q = p then
            (if (dictGet side p).getD 0 + δ ≤ 0 then none
              else some ((dictGet side p).getD 0 + δ))
          else dictGet side q) ∧
    (∀ (store : List (String × Book)) (s : Snapshot) (ds : List BookDelta),
        (∀ d ∈ ds, d.market_ticker = s.market_ticker) →
        dictGet (ds.foldl applyDelta (applySnapshot store s)) s.market_ticker =
          some (ds.foldl bookApplyDelta (snapToBook s))) ∧
    (∀ (s : Snapshot) (ds : List BookDelta),
        (∀ l ∈ s.yes ++ s.no, 0 < l.2) →
        bookPositive (ds.foldl bookApplyDelta (snapToBook s))) := by
  refine ⟨?_, ?_, ?_, ?_, ?_⟩
  · intro store s
    exact dictGet_dictSet_self _ _ _
  · intro store d h
    rw [applyDelta, h]
  · intro side p q δ hu
    simp only [sideApplyDelta]
    by_cases hz : (dictGet side p).getD 0 + δ ≤ 0
    · rw [if_pos hz]
      by_cases hpq : q = p
      · subst hpq
        rw [if_pos rfl, if_pos hz, dictGet_dictPop_self _ _ hu]
      · rw [if_neg hpq, dictGet_dictPop_ne _ _ _ hpq]
    · rw [if_neg hz]
      by_cases hpq : q = p
      · subst hpq
        rw [if_pos rfl, if_neg hz, dictGet_dictSet_self]
      · rw [if_neg hpq, dictGet_dictSet_ne _ _ _ _ hpq]
  · intro store s ds h
    exact foldl_applyDelta_get _ ds h _ _ (dictGet_dictSet_self _ _ _)
  · intro s ds h
    apply bookPositive_foldl
    exact ⟨sidePositive_snapSideToDict
        (fun l hl => h l (List.mem_append.mpr (Or.inl hl))),
      sidePositive_snapSideToDict
        (fun l hl => h l (List.mem_append.mpr (Or.inr hl)))⟩

/-- The S2 snapshot: `yes=[[36,100],[35,200]], no=[[64,80],[65,120]]`. -/
def s2snap : Snapshot :=
  { market_ticker := "M1", yes := [(36, 100), (35, 200)], no := [(64, 80), (65, 120)] }

/-- The S2 deltas. -/
def s2deltas : List BookDelta :=
  [ { market_ticker := "M1", price := 36, delta := -20, sideYes := true }
  , { market_ticker := "M1", price := 33, delta := 50, sideYes := true }
  , { market_ticker := "M1", price := 64, delta := -80, sideYes := false } ]

/-- Witness for C2 at the S2 scenario: the fold hypothesis holds, the
reconstructed store entry is the folded book
`yes={36:80,35:200,33:50}, no={65:120}`, and positivity is preserved. -/
theorem C2_witness :
    (∀ d ∈ s2deltas, d.market_ticker = s2snap.market_ticker) ∧
    dictGet (s2deltas.foldl applyDelta (applySnapshot [] s2snap))
        s2snap.market_ticker =
      some (s2deltas.foldl bookApplyDelta (snapToBook s2snap)) ∧
    s2deltas.foldl bookApplyDelta (snapToBook s2snap) =
      { market_ticker := "M1", yes := [(36, 80), (35, 200), (33, 50)],
        no := [(65, 120)] } ∧
    (∀ l ∈ s2snap.yes ++ s2snap.no, 0 < l.2) ∧
    bookPositive (s2deltas.foldl bookApplyDelta (snapToBook s2snap)) :=
  ⟨by decide,
    C2_orderbook_reconstruction.2.2.2.1 [] s2snap s2deltas (by decide),
    by decide, by decide,
    C2_orderbook_reconstruction.2.2.2.2 s2snap s2deltas (by decide)⟩

/-! ## Claim C4 -/

/-- C4: trade persistence is idempotent on `trade_id` — inserting a trade
whose `trade_id` is already present leaves the table unchanged, writing the
same trade twice equals writing it once, and from a table with no row for
that id, two writes leave exactly one row. -/
theorem C4_trade_insert_idempotent :
    ∀ (tbl : List TradeRow) (t : TradeRow),
      insertTrade (insertTrade tbl t) t = insertTrade tbl t ∧
      ((∃ x ∈ tbl, x.trade_id = t.trade_id) → insertTrade tbl t = tbl) ∧
      (countTradeId tbl t.trade_id = 0 →
        countTradeId (insertTrade (insertTrade tbl t) t) t.trade_id = 1) := by
  intro tbl t
  have hone : ∀ ha : tbl.any (fun x => x.trade_id == t.trade_id) = false,
      insertTrade tbl t = tbl ++ [t] := by
    intro ha
    rw [insertTrade, ha]
    simp
  have hidem : insertTrade (insertTrade tbl t) t = insertTrade tbl t := by
    cases ha : tbl.any (fun x => x.trade_id == t.trade_id) with
    | true =>
      have h1 : insertTrade tbl t = tbl := by rw [insertTrade, ha]; simp
      rw [h1, insertTrade, ha]
      simp
    | false =>
      rw [hone ha, insertTrade]
      have h2 : (tbl ++ [t]).any (fun x => x.trade_id == t.trade_id) = true := by
        simp [List.any_append]
      rw [h2]
      simp
  refine ⟨hidem, ?_, ?_⟩
  · intro ⟨x, hx, hid⟩
    have ha : tbl.any (fun x => x.trade_id == t.trade_id) = true := by
      rw [List.any_eq_true]
      exact ⟨x, hx, by simp [hid]⟩
    rw [insertTrade, ha]
    simp
  · intro hc
    have hnone : ∀ x ∈ tbl, ¬ (x.trade_id == t.trade_id) = true := by
      intro x hx hbeq
      have : x ∈ tbl.filter (fun y => y.trade_id == t.trade_id) :=
        List.mem_filter.mpr ⟨hx, hbeq⟩
      rw [countTradeId, List.length_eq_zero] at hc
      rw [hc] at this
      exact absurd this (List.not_mem_nil x)
    have ha : tbl.any (fun x => x.trade_id == t.trade_id) = false := by
      rw [List.any_eq_false]
      exact hnone
    rw [hidem, hone ha, countTradeId, List.filter_append]
    have hfil : tbl.filter (fun y => y.trade_id == t.trade_id) = [] := by
      rw [countTradeId, List.length_eq_zero] at hc
      exact hc
    rw [hfil]
    simp

/-- The S1 trade `{trade_id:"X1", market_ticker:"M1", yes_price:36,
no_price:64, count:10, taker_side:"yes", ts:1700000000}` as a table row. -/
def s1TradeRow : TradeRow :=
  { trade_id := "X1", market_ticker := "M1", yes_price := 36, no_price := 64,
    count := 10, taker_side_yes := true, ts := 1700000000 }

/-- Witness for C4: publishing S1's trade twice into an empty table leaves
exactly one row for `trade_id = "X1"`. -/
theorem C4_witness :
    countTradeId [] s1TradeRow.trade_id = 0 ∧
    countTradeId (insertTrade (insertTrade [] s1TradeRow) s1TradeRow)
      s1TradeRow.trade_id = 1 :=
  ⟨by decide, (C4_trade_insert_idempotent [] s1TradeRow).2.2 (by decide)⟩

/-! ## Claim C9 -/

/-- C9: a sequence gap is logged iff a previous seq was recorded for the sid
and `seq > last + 1`, with `expected = last + 1` and `received = seq`;
`last_seen_seq[sid]` is then always set to `seq`; and the S5 scenario
(`{sid:7, seq:5}` then `{sid:7, seq:9}`) logs exactly one gap with
`expected=6, received=9`, leaving `last_seen_seq[7] = 9`. -/
theorem C9_sequence_gap_detection :
    (∀ (seqs : List (ℤ × ℤ)) (sid seq : ℤ),
      ((stepSeq seqs sid seq).2 ≠ none ↔
        ∃ l, dictGet seqs sid = some l ∧ seq > l + 1) ∧
      (∀ l, dictGet seqs sid = some l → seq > l + 1 →
        (stepSeq seqs sid seq).2 = some { expected := l + 1, received := seq }) ∧
      dictGet (stepSeq seqs sid seq).1 sid = some seq) ∧
    runSeq [] [(7, 5), (7, 9)] =
      ([(7, 9)], [none, some { expected := 6, received := 9 }]) := by
  constructor
  · intro seqs sid seq
    refine ⟨?_, ?_, ?_⟩
    · cases hg : dictGet seqs sid with
      | none => simp [stepSeq, detectSequenceGap, hg]
      | some l =>
        by_cases hgt : seq > l + 1
        · simp [stepSeq, detectSequenceGap, hg, hgt]
        · simp [stepSeq, detectSequenceGap, hg, hgt]
    · intro l hg hgt
      simp [stepSeq, detectSequenceGap, hg, hgt]
    · simp only [stepSeq]
      exact dictGet_dictSet_self _ _ _
  · decide

/-- Witness for C9: applying the gap characterization at the recorded state
`last_seen_seq[7] = 5` and the message `{sid:7, seq:9}`. -/
theorem C9_witness :
    dictGet [((7 : ℤ), (5 : ℤ))] (7 : ℤ) = some 5 ∧ ((9 : ℤ) > 5 + 1) ∧
    (stepSeq [((7 : ℤ), (5 : ℤ))] 7 9).2 = some { expected := 6, received := 9 } :=
  ⟨by decide, by decide,
    (C9_sequence_gap_detection.1 [(7, 5)] 7 9).2.1 5 (by decide) (by decide)⟩

/-! ## Claim C10 -/

/-- C10: once a market's flow state satisfies the illiquidity condition
(`total_volume < 200` and `total_trades > 10`), the check — which runs
before the trade is recorded — makes every subsequent trade a no-op: the
state is never modified again and no signal of any type is emitted. -/
theorem C10_illiquidity_lockout :
    ∀ (st : MarketFlowState),
      st.total_volume < FLOW_TOXICITY_CONFIG.min_market_volume →
      st.total_trades > 10 →
      ∀ (trades : List Trade),
        runToxicity FLOW_TOXICITY_CONFIG st trades = (st, []) := by
  intro st h1 h2 trades
  have hstep : ∀ t, processTrade FLOW_TOXICITY_CONFIG st t = (st, []) := by
    intro t
    rw [processTrade, if_pos ⟨h1, h2⟩]
  have main : ∀ (ts : List Trade) (acc : List Signal),
      ts.foldl
        (fun acc t =>
          let (st1, sigs) := processTrade FLOW_TOXICITY_CONFIG acc.1 t
          (st1, acc.2 ++ sigs))
        (st, acc) = (st, acc) := by
    intro ts
    induction ts with
    | nil => intro acc; rfl
    | cons t ts ih =>
      intro acc
      rw [List.foldl_cons]
      simp only [hstep t, List.append_nil]
      exact ih acc
  exact main trades []

/-- A market state locked out by the illiquidity filter: 11 unit trades
recorded, 11 contracts of volume. -/
def lockedState : MarketFlowState :=
  { bucket_size := 25, window_size := 20, current_bucket_volume := 11,
    current_bucket_buy_volume := 11, bucket_vpins := [],
    trade_timestamps := [0, 10, 20, 30, 40, 50, 60, 70, 80, 90, 100],
    trade_sizes := [1, 1, 1, 1, 1, 1, 1, 1, 1, 1, 1],
    total_volume := 11, total_trades := 11 }

/-- Witness for C10: the locked state satisfies the illiquidity condition
and absorbs a further (large!) trade without state change or signals. -/
theorem C10_witness :
    lockedState.total_volume < FLOW_TOXICITY_CONFIG.min_market_volume ∧
    lockedState.total_trades > 10 ∧
    runToxicity FLOW_TOXICITY_CONFIG lockedState
        [{ market_ticker := "M1", count := 500, takerSideYes := true, ts := 110 }] =
      (lockedState, []) :=
  ⟨by decide, by decide,
    C10_illiquidity_lockout lockedState (by decide) (by decide) _⟩

/-! ## Claim C1 -/

/-- The S3 trade stream: 25 trades on one market, `taker_side="yes"`,
`count=1`, spaced 10 s apart. -/
def s3trades : List Trade :=
  (List.range 25).map
    (fun i =>
      { market_ticker := "M1", count := 1, takerSideYes := true,
        ts := ((10 * i : ℕ) : ℚ) })

/-- C1 counterexample: feeding the 25 unit yes-trades of S3 to the
classifier (bucket size 25, threshold 0.80) emits NO signal at all — in
particular the 25th trade does not complete the bucket: the illiquidity
check (`total_volume < 200 and total_trades > 10`) runs before the trade is
recorded, so recording stops after the 11th trade and the bucket volume
stalls at 11 < 25. -/
theorem C1_counterexample :
    (runToxicity FLOW_TOXICITY_CONFIG (MarketFlowState.init FLOW_TOXICITY_CONFIG)
        s3trades).2 = [] ∧
    (runToxicity FLOW_TOXICITY_CONFIG (MarketFlowState.init FLOW_TOXICITY_CONFIG)
        s3trades).1.current_bucket_volume = 11 ∧
    (runToxicity FLOW_TOXICITY_CONFIG (MarketFlowState.init FLOW_TOXICITY_CONFIG)
        s3trades).1.total_trades = 11 := by
  norm_num [runToxicity, s3trades, List.range_succ, processTrade,
    FLOW_TOXICITY_CONFIG, MarketFlowState.init, MarketFlowState.addTrade,
    MarketFlowState.currentBucketFull, MarketFlowState.computeVpin,
    MarketFlowState.advanceBucket, MarketFlowState.rollingVpin,
    MarketFlowState.meanTradeSize, MarketFlowState.detectBurst,
    MarketFlowState.dominantSide, MarketFlowState.interArrivalRate,
    dequeAppend, List.cons_ne_nil]

/-- C1 (amended): the 25 unit-count trades of S3 produce no signal (the
illiquidity filter engages from the 12th trade on, so the bucket never
fills).  When a bucket does fill with all-yes volume — a single trade of
count 25 on a fresh market — the classifier emits exactly one
`flow_toxicity` signal with VPIN 1.0: strength 1.0, confidence 0.515,
urgency `immediate`, but direction `neutral`, because the dominant side is
read from the bucket *after* `advance_bucket` has reset it. -/
theorem C1_amended :
    (runToxicity FLOW_TOXICITY_CONFIG (MarketFlowState.init FLOW_TOXICITY_CONFIG)
        s3trades).2 = [] ∧
    (processTrade FLOW_TOXICITY_CONFIG (MarketFlowState.init FLOW_TOXICITY_CONFIG)
        { market_ticker := "M1", count := 25, takerSideYes := true, ts := 0 }).2 =
      [{ signal_type := "flow_toxicity", market_ticker := "M1",
         direction := SignalDirection.neutral, strength := 1,
         confidence := 103/200, urgency := SignalUrgency.immediate,
         ts := 0, ttl_seconds := 300 }] := by
  constructor
  · norm_num [runToxicity, s3trades, List.range_succ, processTrade,
      FLOW_TOXICITY_CONFIG, MarketFlowState.init, MarketFlowState.addTrade,
      MarketFlowState.currentBucketFull, MarketFlowState.computeVpin,
      MarketFlowState.advanceBucket, MarketFlowState.rollingVpin,
      MarketFlowState.meanTradeSize, MarketFlowState.detectBurst,
      MarketFlowState.dominantSide, MarketFlowState.interArrivalRate,
      dequeAppend, List.cons_ne_nil]
  · have habs : |(1 : ℚ)/2| = 1/2 := by
      rw [abs_of_nonneg]
      norm_num
    norm_num [processTrade, FLOW_TOXICITY_CONFIG, MarketFlowState.init,
      MarketFlowState.addTrade, MarketFlowState.currentBucketFull,
      MarketFlowState.computeVpin, MarketFlowState.advanceBucket,
      MarketFlowState.rollingVpin, MarketFlowState.meanTradeSize,
      MarketFlowState.detectBurst, MarketFlowState.dominantSide,
      MarketFlowState.interArrivalRate, dequeAppend, List.cons_ne_nil,
      createToxicitySignal, createRollingToxicitySignal, createBurstSignal,
      createLargeTradeSignal, Signal.mk.injEq, habs]
    all_goals decide

/-! ## Claim C7 -/

/-- C7: the inferred expected direction is `none` whenever either market's
threshold is unparseable, the threshold types differ, the thresholds are
equal, or the shared type is `between` — and `_check_propagation` emits no
signal for a target whose inferred direction is `none`. -/
theorem C7_threshold_inference_suppression :
    (∀ (cache : String → Option (ThreshType × ℚ)) (source target : String)
        (dir : MoveDir),
      (cache source = none →
        inferExpectedDirection cache source target dir = none) ∧
      (cache target = none →
        inferExpectedDirection cache source target dir = none) ∧
      (∀ a b, cache source = some a → cache target = some b →
        (a.1 ≠ b.1 ∨ a.2 = b.2 ∨ a.1 = ThreshType.between) →
        inferExpectedDirection cache source target dir = none)) ∧
    (∀ (cfg : CrossConfig) (thresholds : String → Option (ThreshType × ℚ))
        (marketPrices : String → Option ℤ) (moveTs : String → Option ℚ)
        (related : List String) (moved : String) (oldPrice newPrice : ℤ)
        (movedAt : ℚ) (r : String),
      inferExpectedDirection thresholds moved r
          (if newPrice > oldPrice then MoveDir.up else MoveDir.down) = none →
      ∀ s ∈ checkPropagation cfg thresholds marketPrices moveTs related moved
          oldPrice newPrice movedAt,
        s.market_ticker ≠ r) := by
  constructor
  · intro cache source target dir
    refine ⟨?_, ?_, ?_⟩
    · intro h
      rw [inferExpectedDirection, h]
    · intro h
      rw [inferExpectedDirection, h]
      cases cache source <;> rfl
    · intro a b ha hb hcase
      obtain ⟨t1, v1⟩ := a
      obtain ⟨t2, v2⟩ := b
      simp only at hcase
      rw [inferExpectedDirection, ha, hb]
      simp only
      by_cases h12 : t1 = t2
      · rw [if_neg (by simp [h12])]
        by_cases hv : v1 = v2
        · rw [if_pos hv]
        · rw [if_neg hv]
          rcases hcase with hc | hc | hc
          · exact absurd h12 hc
          · exact absurd hc hv
          · subst hc
            rfl
      · rw [if_pos h12]
  · intro cfg thresholds marketPrices moveTs related moved oldPrice newPrice
      movedAt r hinfer s hs
    rw [checkPropagation] at hs
    by_cases htop : related = [] ∨ related.length > cfg.max_related_markets
    · rw [if_pos htop] at hs
      exact absurd hs (List.not_mem_nil s)
    · rw [if_neg htop] at hs
      obtain ⟨x, hx, hfx⟩ := List.mem_filterMap.mp hs
      by_cases hxm : x = moved
      · rw [if_pos hxm] at hfx
        exact absurd hfx (by simp)
      · rw [if_neg hxm] at hfx
        cases hp : marketPrices x with
        | none =>
          rw [hp] at hfx
          exact absurd hfx (by simp)
        | some v =>
          rw [hp] at hfx
          simp only at hfx
          by_cases hw : movedAt - (moveTs x).getD 0 > cfg.propagation_window
          · rw [if_pos hw] at hfx
            cases hi : inferExpectedDirection thresholds moved x
                (if newPrice > oldPrice then MoveDir.up else MoveDir.down) with
            | none =>
              rw [hi] at hfx
              exact absurd hfx (by simp)
            | some d =>
              rw [hi] at hfx
              simp only [Option.some.injEq] at hfx
              intro heq
              have hsx : s.market_ticker = x := by
                rw [← hfx]
                exact rfl
              have hxr : x = r := by rw [← hsx, heq]
              rw [hxr, hinfer] at hi
              exact Option.noConfusion hi
          · rw [if_neg hw] at hfx
            exact absurd hfx (by simp)

/-- A threshold cache giving markets `"A"` and `"B"` the same parsed
threshold `("above", 60)`. -/
def c7cache : String → Option (ThreshType × ℚ) :=
  fun t =>
    if t = "A" then some (ThreshType.above, 60)
    else if t = "B" then some (ThreshType.above, 60)
    else none

/-- Witness for C7: two `above` markets with equal thresholds infer no
direction, and the propagation check emits nothing targeting `"B"`. -/
theorem C7_witness :
    c7cache ("A") = some (ThreshType.above, 60) ∧
    c7cache ("B") = some (ThreshType.above, 60) ∧
    inferExpectedDirection c7cache ("A") ("B") MoveDir.up = none ∧
    (∀ s ∈ checkPropagation CROSS_MARKET_CONFIG c7cache (fun _ => some 50)
        (fun _ => none) ["B"] ("A") 40 50 1000, s.market_ticker ≠ "B") := by
  have hA : c7cache ("A") = some (ThreshType.above, 60) := by simp [c7cache]
  have hB : c7cache ("B") = some (ThreshType.above, 60) := by simp [c7cache]
  have hinfer : ∀ dir, inferExpectedDirection c7cache ("A") ("B") dir = none :=
    fun dir =>
      (C7_threshold_inference_suppression.1 c7cache ("A") ("B") dir).2.2
        (ThreshType.above, 60) (ThreshType.above, 60) hA hB (Or.inr (Or.inl rfl))
  exact ⟨hA, hB, hinfer MoveDir.up,
    C7_threshold_inference_suppression.2 CROSS_MARKET_CONFIG c7cache
      (fun _ => some 50) (fun _ => none) ["B"] ("A") 40 50 1000 ("B")
      (hinfer _)⟩

/-! ## Claim C6 -/

/-- Twenty-one related markets, one more than `max_related_markets`. -/
def related21 : List String :=
  ["R01", "R02", "R03", "R04", "R05", "R06", "R07", "R08", "R09", "R10",
   "R11", "R12", "R13", "R14", "R15", "R16", "R17", "R18", "R19", "R20", "R21"]

/-- Thresholds: the source parses to `("above", 0)`, every other market to
`("above", 1)` — so a direction is inferable for every source/target pair. -/
def c6thresholds : String → Option (ThreshType × ℚ) :=
  fun t =>
    if t = "SRC" then some (ThreshType.above, 0) else some (ThreshType.above, 1)

/-- Price cache for the C6 scenarios: every market has a known price of 50. -/
def c6prices : String → Option ℤ := fun _ => some 50

/-- Move-timestamp cache for the C6 scenarios: no market has ever moved
(`price_move_timestamps.get(r, 0)` reads 0). -/
def c6moveTs : String → Option ℚ := fun _ => none

/-- C6 counterexample: a 40→50 move with 21 related markets — each of them
(e.g. `"R01"`) eligible: distinct from the source, known price, no move in
the propagation window, inferable direction — emits NO signal at all:
`_check_propagation` returns early when the related list exceeds
`max_related_markets = 20` instead of capping it at 20. -/
theorem C6_counterexample :
    related21.length = 21 ∧
    ("R01" ∈ related21 ∧ "R01" ≠ "SRC" ∧ c6prices ("R01") = some 50 ∧
      (1000 : ℚ) - (c6moveTs ("R01")).getD 0 > CROSS_MARKET_CONFIG.propagation_window ∧
      inferExpectedDirection c6thresholds ("SRC") ("R01") MoveDir.up =
        some SignalDirection.buyYes) ∧
    checkPropagation CROSS_MARKET_CONFIG c6thresholds c6prices c6moveTs
      related21 ("SRC") 40 50 1000 = [] := by
  refine ⟨by decide,
    ⟨by decide, by decide, by decide,
      by norm_num [c6moveTs, CROSS_MARKET_CONFIG], ?_⟩, ?_⟩
  · have hne : ("R01" : String) ≠ "SRC" := by decide
    norm_num [inferExpectedDirection, c6thresholds, hne]
  · simp only [checkPropagation]
    rw [if_pos (Or.inr (by decide))]

/-- C6 (amended): when a market with a known previous price moves, and the
related list is non-empty with at most `max_related_markets = 20` entries,
`_check_propagation` emits one `cross_market_propagation` signal — strength
`min(1, |move|/10)`, confidence 0.65, urgency `immediate` — for each related
market other than the source that has a known price, has not moved within
the `propagation_window = 30` s, and has an inferable direction; when the
related list has more than 20 entries (or is empty), nothing is emitted. -/
theorem C6_propagation_characterization :
    ∀ (thresholds : String → Option (ThreshType × ℚ))
      (marketPrices : String → Option ℤ) (moveTs : String → Option ℚ)
      (related : List String) (moved : String) (oldPrice newPrice : ℤ)
      (movedAt : ℚ),
      (¬ (related = [] ∨
          related.length > CROSS_MARKET_CONFIG.max_related_markets) →
        ∀ r ∈ related, r ≠ moved → (marketPrices r).isSome →
          movedAt - (moveTs r).getD 0 > CROSS_MARKET_CONFIG.propagation_window →
          ∀ d, inferExpectedDirection thresholds moved r
              (if newPrice > oldPrice then MoveDir.up else MoveDir.down) =
              some d →
            mkPropagationSignal r d |newPrice - oldPrice| ∈
              checkPropagation CROSS_MARKET_CONFIG thresholds marketPrices
                moveTs related moved oldPrice newPrice movedAt) ∧
      (∀ s ∈ checkPropagation CROSS_MARKET_CONFIG thresholds marketPrices
          moveTs related moved oldPrice newPrice movedAt,
        s.signal_type = "cross_market_propagation" ∧
        s.strength = min 1 (((|newPrice - oldPrice| : ℤ) : ℚ) / 10) ∧
        s.confidence = 0.65 ∧
        s.urgency = SignalUrgency.immediate) ∧
      (related.length > CROSS_MARKET_CONFIG.max_related_markets →
        checkPropagation CROSS_MARKET_CONFIG thresholds marketPrices moveTs
          related moved oldPrice newPrice movedAt = []) ∧
      CROSS_MARKET_CONFIG.max_related_markets = 20 ∧
      CROSS_MARKET_CONFIG.propagation_window = 30 := by
  intro thresholds marketPrices moveTs related moved oldPrice newPrice movedAt
  refine ⟨?_, ?_, ?_, rfl, rfl⟩
  · intro htop r hr hrm hp hw d hd
    simp only [checkPropagation]
    rw [if_neg htop]
    apply List.mem_filterMap.mpr
    refine ⟨r, hr, ?_⟩
    dsimp only
    rw [if_neg hrm]
    cases hps : marketPrices r with
    | none =>
      rw [hps] at hp
      exact absurd hp (by simp)
    | some v =>
      simp [hw, hd]
  · intro s hs
    simp only [checkPropagation] at hs
    by_cases htop : related = [] ∨
        related.length > CROSS_MARKET_CONFIG.max_related_markets
    · rw [if_pos htop] at hs
      exact absurd hs (List.not_mem_nil s)
    · rw [if_neg htop] at hs
      obtain ⟨x, hx, hfx⟩ := List.mem_filterMap.mp hs
      by_cases hxm : x = moved
      · rw [if_pos hxm] at hfx
        exact absurd hfx (by simp)
      · rw [if_neg hxm] at hfx
        cases hps : marketPrices x with
        | none =>
          rw [hps] at hfx
          exact absurd hfx (by simp)
        | some v =>
          rw [hps] at hfx
          simp only at hfx
          by_cases hw : movedAt - (moveTs x).getD 0 >
              CROSS_MARKET_CONFIG.propagation_window
          · rw [if_pos hw] at hfx
            cases hi : inferExpectedDirection thresholds moved x
                (if newPrice > oldPrice then MoveDir.up else MoveDir.down) with
            | none =>
              rw [hi] at hfx
              exact absurd hfx (by simp)
            | some d =>
              rw [hi] at hfx
              simp only [Option.some.injEq] at hfx
              rw [← hfx]
              exact ⟨rfl, rfl, rfl, rfl⟩
          · rw [if_neg hw] at hfx
            exact absurd hfx (by simp)
  · intro hlen
    simp only [checkPropagation]
    rw [if_pos (Or.inr hlen)]

/-- Witness for C6: a single eligible related market (`"TGT"`) receives the
propagation signal for a 40→50 move on `"SRC"`. -/
theorem C6_witness :
    ¬ ((["TGT"] : List String) = [] ∨
        (["TGT"] : List String).length > CROSS_MARKET_CONFIG.max_related_markets) ∧
    inferExpectedDirection c6thresholds ("SRC") ("TGT")
        (if (50 : ℤ) > 40 then MoveDir.up else MoveDir.down) =
      some SignalDirection.buyYes ∧
    mkPropagationSignal ("TGT") SignalDirection.buyYes |(50 : ℤ) - 40| ∈
      checkPropagation CROSS_MARKET_CONFIG c6thresholds c6prices c6moveTs
        ["TGT"] ("SRC") 40 50 1000 := by
  have htop : ¬ ((["TGT"] : List String) = [] ∨
      (["TGT"] : List String).length > CROSS_MARKET_CONFIG.max_related_markets) := by
    decide
  have hinfer : inferExpectedDirection c6thresholds ("SRC") ("TGT")
      (if (50 : ℤ) > 40 then MoveDir.up else MoveDir.down) =
      some SignalDirection.buyYes := by
    have hne : ("TGT" : String) ≠ "SRC" := by decide
    norm_num [inferExpectedDirection, c6thresholds, hne]
  refine ⟨htop, hinfer, ?_⟩
  exact (C6_propagation_characterization c6thresholds c6prices c6moveTs
      ["TGT"] ("SRC") 40 50 1000).1 htop ("TGT")
    (List.mem_singleton.mpr rfl) (by decide) (by decide)
    (by norm_num [c6moveTs, CROSS_MARKET_CONFIG]) SignalDirection.buyYes hinfer

/-! ## Rounding lemmas -/

theorem roundHalfEven_le (y : ℚ) (n : ℤ) (h : y ≤ n) : roundHalfEven y ≤ n := by
  rw [roundHalfEven]
  have hfl : ⌊y⌋ ≤ n := Int.floor_le_floor h |>.trans_eq (Int.floor_intCast n)
  by_cases h1 : y - ⌊y⌋ < 1/2
  · rw [if_pos h1]
    exact hfl
  · rw [if_neg h1]
    have h2 : (⌊y⌋ : ℚ) + 1/2 ≤ y := by
      have := not_lt.mp h1
      linarith
    have h3 : (⌊y⌋ : ℚ) < (n : ℚ) := by
      have hyn : y ≤ (n : ℚ) := h
      linarith
    have h4 : ⌊y⌋ + 1 ≤ n := Int.add_one_le_iff.mpr (by exact_mod_cast h3)
    by_cases h5 : 1/2 < y - ⌊y⌋
    · rw [if_pos h5]
      exact h4
    · rw [if_neg h5]
      by_cases h6 : ⌊y⌋ % 2 = 0
      · rw [if_pos h6]
        omega
      · rw [if_neg h6]
        exact h4

theorem le_roundHalfEven (y : ℚ) (n : ℤ) (h : (n : ℚ) ≤ y) :
    n ≤ roundHalfEven y := by
  rw [roundHalfEven]
  have hn : n ≤ ⌊y⌋ := Int.le_floor.mpr h
  by_cases h1 : y - ⌊y⌋ < 1/2
  · rw [if_pos h1]
    exact hn
  · rw [if_neg h1]
    by_cases h5 : 1/2 < y - ⌊y⌋
    · rw [if_pos h5]
      omega
    · rw [if_neg h5]
      by_cases h6 : ⌊y⌋ % 2 = 0
      · rw [if_pos h6]
        exact hn
      · rw [if_neg h6]
        omega

theorem round4_bounds {x : ℚ} (h1 : -1 ≤ x) (h2 : x ≤ 1) :
    -1 ≤ round4 x ∧ round4 x ≤ 1 := by
  rw [round4]
  have hub : roundHalfEven (x * 10000) ≤ 10000 :=
    roundHalfEven_le _ _ (by push_cast; linarith)
  have hlb : (-10000 : ℤ) ≤ roundHalfEven (x * 10000) :=
    le_roundHalfEven _ _ (by push_cast; linarith)
  constructor
  · rw [le_div_iff₀ (by norm_num : (0 : ℚ) < 10000)]
    have : ((-10000 : ℤ) : ℚ) ≤ (roundHalfEven (x * 10000) : ℚ) := by
      exact_mod_cast hlb
    push_cast at this
    linarith
  · rw [div_le_iff₀ (by norm_num : (0 : ℚ) < 10000)]
    have : ((roundHalfEven (x * 10000) : ℤ) : ℚ) ≤ ((10000 : ℤ) : ℚ) := by
      exact_mod_cast hub
    push_cast at this
    linarith

/-- `_compute_composite` stores the signal list it was given. -/
theorem computeComposite_active_signals (regime : MarketRegime) (ticker : String)
    (l : List Signal) (c : Composite)
    (h : computeComposite regime ticker l = some c) : c.active_signals = l := by
  simp only [computeComposite] at h
  split at h
  · exact absurd h (by simp)
  · split at h
    · exact absurd h (by simp)
    · simp only [Option.some.injEq] at h
      rw [← h]

/-! ## Claim C3 -/

theorem SIGNAL_WEIGHTS_flow_toxicity :
    SIGNAL_WEIGHTS ("flow_toxicity") = 0.35 := rfl

theorem SIGNAL_WEIGHTS_oi_divergence :
    SIGNAL_WEIGHTS ("oi_divergence") = 0.30 := rfl

theorem regimeModifier_active_flow_toxicity :
    regimeModifier MarketRegime.active ("flow_toxicity") = 1.0 := rfl

theorem regimeModifier_active_oi_divergence :
    regimeModifier MarketRegime.active ("oi_divergence") = 1.0 := rfl

theorem regimeModifier_unknown (t : String) :
    regimeModifier MarketRegime.unknown t = 1 := rfl

/-- The S4 signal `flow_toxicity buy_yes strength=0.8 conf=0.7`. -/
def s4toxicity : Signal :=
  { signal_type := "flow_toxicity", market_ticker := "M1",
    direction := SignalDirection.buyYes, strength := 0.8, confidence := 0.7,
    urgency := SignalUrgency.watch }

/-- The S4 signal `oi_divergence buy_no strength=0.9 conf=0.8`. -/
def s4divergence : Signal :=
  { signal_type := "oi_divergence", market_ticker := "M1",
    direction := SignalDirection.buyNo, strength := 0.9, confidence := 0.8,
    urgency := SignalUrgency.watch }

/-- C3 counterexample: the claim's equality
`composite_score = clamp(weighted_sum / total_weight, −1, +1)` fails on the
code, which stores `round(score, 4)`: a single `flow_toxicity buy_yes`
signal with strength 1/100000 and confidence 1 yields an exact weighted mean
of 1/100000 but a stored `composite_score` of 0. -/
theorem C3_counterexample :
    weightedSum MarketRegime.active
        [{ signal_type := "flow_toxicity", market_ticker := "M1",
           direction := SignalDirection.buyYes, strength := 1/100000,
           confidence := 1, urgency := SignalUrgency.watch }] /
      totalWeight MarketRegime.active
        [{ signal_type := "flow_toxicity", market_ticker := "M1",
           direction := SignalDirection.buyYes, strength := 1/100000,
           confidence := 1, urgency := SignalUrgency.watch }] = 1/100000 ∧
    computeComposite MarketRegime.active ("M1")
        [{ signal_type := "flow_toxicity", market_ticker := "M1",
           direction := SignalDirection.buyYes, strength := 1/100000,
           confidence := 1, urgency := SignalUrgency.watch }] =
      some { market_ticker := "M1", direction := SignalDirection.neutral,
             composite_score := 0,
             active_signals :=
               [{ signal_type := "flow_toxicity", market_ticker := "M1",
                  direction := SignalDirection.buyYes, strength := 1/100000,
                  confidence := 1, urgency := SignalUrgency.watch }],
             regime := MarketRegime.active } ∧
    ((0 : ℚ) ≠ max (-1) (min 1 ((1 : ℚ)/100000))) := by
  refine ⟨?_, ?_, ?_⟩
  · norm_num [weightedSum, totalWeight, signalWeight, SIGNAL_WEIGHTS,
      regimeModifier, directionMult]
  · norm_num [computeComposite, weightedSum, totalWeight, signalWeight,
      SIGNAL_WEIGHTS, regimeModifier, directionMult, round4, roundHalfEven,
      List.cons_ne_nil, Composite.mk.injEq, max_def, min_def]
  · norm_num [max_def, min_def]

/-- C3 (amended): every composite computed over a non-empty signal list with
non-zero total weight has
`composite_score = round(clamp(weighted_sum/total_weight, −1, +1), 4)`
(hence in `[−1, 1]`), each signal contributing
`strength × direction_mult × (base_weight × regime_mod × confidence)` to the
sum and `base_weight × regime_mod × confidence` to the weight; its direction
comes from the *unrounded* clamped score with the ±0.1 dead-zone; a
composite is published by `process_message` only when
`|composite_score| ≥ 0.4`; and the two S4 signals in regime `active` give
exactly −4/97 (stored as −0.0412), direction neutral, not published. -/
theorem C3_composite_characterization :
    (∀ (regime : MarketRegime) (ticker : String) (active : List Signal),
      active ≠ [] → totalWeight regime active ≠ 0 →
      ∃ c, computeComposite regime ticker active = some c ∧
        c.composite_score =
          round4 (max (-1)
            (min 1 (weightedSum regime active / totalWeight regime active))) ∧
        -1 ≤ c.composite_score ∧ c.composite_score ≤ 1 ∧
        (c.direction = SignalDirection.buyYes ↔
          max (-1) (min 1 (weightedSum regime active / totalWeight regime active))
            > 0.1) ∧
        (c.direction = SignalDirection.buyNo ↔
          max (-1) (min 1 (weightedSum regime active / totalWeight regime active))
            < -0.1) ∧
        c.active_signals = active ∧ c.regime = regime) ∧
    (∀ (cfg : AggConfig) (now : ℚ) (regime : MarketRegime) (ticker : String)
        (st : AggMarketState) (sig : Signal) (st' : AggMarketState)
        (copt : Option Composite),
      processSignal cfg now regime ticker st sig = (st', copt, true) →
      ∃ c, copt = some c ∧ |c.composite_score| ≥ cfg.min_composite_score) ∧
    (computeComposite MarketRegime.active ("M1") [s4toxicity, s4divergence] =
      some { market_ticker := "M1", direction := SignalDirection.neutral,
             composite_score := -103/2500,
             active_signals := [s4toxicity, s4divergence],
             regime := MarketRegime.active } ∧
      weightedSum MarketRegime.active [s4toxicity, s4divergence] /
          totalWeight MarketRegime.active [s4toxicity, s4divergence] = -4/97 ∧
      ¬ (|(-103/2500 : ℚ)| ≥ AGGREGATOR_CONFIG.min_composite_score)) := by
  refine ⟨?_, ?_, ?_, ?_, ?_⟩
  · intro regime ticker active hne htw
    simp only [computeComposite, if_neg hne, if_neg htw]
    set z := weightedSum regime active / totalWeight regime active with hz
    set score := max (-1) (min 1 z) with hscore
    have hs1 : -1 ≤ score := le_max_left _ _
    have hs2 : score ≤ 1 := max_le (by norm_num) (min_le_left _ _)
    have hb := round4_bounds hs1 hs2
    by_cases hgt : score > 0.1
    · refine ⟨_, rfl, rfl, hb.1, hb.2, ?_, ?_, rfl, rfl⟩
      · simp [hgt]
      · simp only [if_pos hgt]
        constructor
        · intro h
          exact absurd h (by decide)
        · intro h
          linarith
    · by_cases hlt : score < -0.1
      · refine ⟨_, rfl, rfl, hb.1, hb.2, ?_, ?_, rfl, rfl⟩
        · simp only [if_neg hgt, if_pos hlt]
          constructor
          · intro h
            exact absurd h (by decide)
          · intro h
            linarith
        · simp [hgt, hlt]
      · refine ⟨_, rfl, rfl, hb.1, hb.2, ?_, ?_, rfl, rfl⟩
        · simp only [if_neg hgt, if_neg hlt]
          constructor
          · intro h
            exact absurd h (by decide)
          · intro h
            exact absurd h hgt
        · simp only [if_neg hgt, if_neg hlt]
          constructor
          · intro h
            exact absurd h (by decide)
          · intro h
            exact absurd h hlt
  · intro cfg now regime ticker st sig st' copt hps
    simp only [processSignal] at hps
    split at hps
    · simp only [Prod.mk.injEq] at hps
      exact absurd hps.2.2 (by decide)
    · split at hps
      · simp only [Prod.mk.injEq] at hps
        exact absurd hps.2.2 (by decide)
      · rename_i c hcc
        split at hps
        · rename_i hsc
          simp only [Prod.mk.injEq] at hps
          exact ⟨c, hps.2.1.symm, hsc⟩
        · simp only [Prod.mk.injEq] at hps
          exact absurd hps.2.2 (by decide)
  · norm_num [computeComposite, weightedSum, totalWeight, signalWeight,
      SIGNAL_WEIGHTS_flow_toxicity, SIGNAL_WEIGHTS_oi_divergence,
      regimeModifier_active_flow_toxicity, regimeModifier_active_oi_divergence,
      directionMult, s4toxicity, s4divergence, List.cons_ne_nil,
      round4, roundHalfEven, Composite.mk.injEq, max_def, min_def]
  · norm_num [weightedSum, totalWeight, signalWeight,
      SIGNAL_WEIGHTS_flow_toxicity, SIGNAL_WEIGHTS_oi_divergence,
      regimeModifier_active_flow_toxicity, regimeModifier_active_oi_divergence,
      directionMult, s4toxicity, s4divergence]
  · norm_num [AGGREGATOR_CONFIG, abs_of_nonpos]

/-- Witness for C3 at the S4 scenario: the two-signal list is non-empty with
non-zero total weight and the characterization applies to it. -/
theorem C3_witness :
    ([s4toxicity, s4divergence] ≠ []) ∧
    totalWeight MarketRegime.active [s4toxicity, s4divergence] ≠ 0 ∧
    (∃ c, computeComposite MarketRegime.active ("M1") [s4toxicity, s4divergence] =
        some c ∧
      c.composite_score =
        round4 (max (-1) (min 1
          (weightedSum MarketRegime.active [s4toxicity, s4divergence] /
            totalWeight MarketRegime.active [s4toxicity, s4divergence]))) ∧
      -1 ≤ c.composite_score ∧ c.composite_score ≤ 1 ∧
      (c.direction = SignalDirection.buyYes ↔
        max (-1) (min 1
          (weightedSum MarketRegime.active [s4toxicity, s4divergence] /
            totalWeight MarketRegime.active [s4toxicity, s4divergence])) > 0.1) ∧
      (c.direction = SignalDirection.buyNo ↔
        max (-1) (min 1
          (weightedSum MarketRegime.active [s4toxicity, s4divergence] /
            totalWeight MarketRegime.active [s4toxicity, s4divergence])) < -0.1) ∧
      c.active_signals = [s4toxicity, s4divergence] ∧
      c.regime = MarketRegime.active) :=
  ⟨by simp,
    by norm_num [totalWeight, signalWeight,
      SIGNAL_WEIGHTS_flow_toxicity, SIGNAL_WEIGHTS_oi_divergence,
      regimeModifier_active_flow_toxicity, regimeModifier_active_oi_divergence,
      s4toxicity, s4divergence],
    C3_composite_characterization.1 MarketRegime.active ("M1")
      [s4toxicity, s4divergence] (by simp)
      (by norm_num [totalWeight, signalWeight,
        SIGNAL_WEIGHTS_flow_toxicity, SIGNAL_WEIGHTS_oi_divergence,
        regimeModifier_active_flow_toxicity, regimeModifier_active_oi_divergence,
        s4toxicity, s4divergence])⟩

/-! ## Claim C5 -/

/-- C5: a signal is live iff `now − ts ≤ ttl_seconds` (`is_expired` is the
strict complement), and every composite the aggregator computes contains
only signals satisfying that bound at computation time — the active list is
pruned of expired signals before `_compute_composite` runs. -/
theorem C5_ttl_exclusion :
    (∀ (now : ℚ) (s : Signal),
      (s.isExpired now = false ↔ now - s.ts ≤ s.ttl_seconds)) ∧
    (∀ (cfg : AggConfig) (now : ℚ) (regime : MarketRegime) (ticker : String)
        (st : AggMarketState) (sig : Signal) (st' : AggMarketState)
        (c : Composite) (pub : Bool),
      processSignal cfg now regime ticker st sig = (st', some c, pub) →
      ∀ s ∈ c.active_signals, now - s.ts ≤ s.ttl_seconds) := by
  constructor
  · intro now s
    simp [Signal.isExpired, not_lt]
  · intro cfg now regime ticker st sig st' c pub hps s hsmem
    simp only [processSignal] at hps
    split at hps
    · simp only [Prod.mk.injEq] at hps
      exact absurd hps.2.1 (by simp)
    · split at hps
      · simp only [Prod.mk.injEq] at hps
        exact absurd hps.2.1 (by simp)
      · rename_i c0 hcc
        have hc0 : c0 = c := by
          split at hps
          · simp only [Prod.mk.injEq] at hps
            exact Option.some.inj hps.2.1
          · simp only [Prod.mk.injEq] at hps
            exact Option.some.inj hps.2.1
        rw [hc0] at hcc
        have hact := computeComposite_active_signals _ _ _ _ hcc
        rw [hact] at hsmem
        have hcond := (List.mem_filter.mp hsmem).2
        simp only [decide_eq_true_eq] at hcond
        have hnot : ¬ (now - s.ts > s.ttl_seconds) := by
          intro hgt
          rw [show s.isExpired now = true from decide_eq_true hgt] at hcond
          exact hcond rfl
        exact not_lt.mp hnot

/-- The live signal fed to the aggregator in the C5 witness scenario. -/
def c5sig : Signal :=
  { signal_type := "flow_toxicity", market_ticker := "M1",
    direction := SignalDirection.buyYes, strength := 0.8, confidence := 0.7,
    urgency := SignalUrgency.watch, ts := 40, ttl_seconds := 300 }

/-- Witness for C5: a concrete aggregation step at `now = 50` computes a
published composite whose only contributing signal satisfies
`now − ts ≤ ttl_seconds`. -/
theorem C5_witness :
    processSignal AGGREGATOR_CONFIG 50 MarketRegime.unknown ("M1")
        { active := [], lastPub := none } c5sig =
      ({ active := [c5sig], lastPub := some 50 },
        some { market_ticker := "M1", direction := SignalDirection.buyYes,
               composite_score := 0.8, active_signals := [c5sig],
               regime := MarketRegime.unknown }, true) ∧
    (∀ s ∈ ({ market_ticker := "M1", direction := SignalDirection.buyYes,
               composite_score := 0.8, active_signals := [c5sig],
               regime := MarketRegime.unknown } : Composite).active_signals,
      (50 : ℚ) - s.ts ≤ s.ttl_seconds) := by
  have hrun : processSignal AGGREGATOR_CONFIG 50 MarketRegime.unknown ("M1")
      { active := [], lastPub := none } c5sig =
      ({ active := [c5sig], lastPub := some 50 },
        some { market_ticker := "M1", direction := SignalDirection.buyYes,
               composite_score := 0.8, active_signals := [c5sig],
               regime := MarketRegime.unknown }, true) := by
    have habs : |(4/5 : ℚ)| = 4/5 := by
      rw [abs_of_nonneg]
      norm_num
    norm_num [processSignal, AGGREGATOR_CONFIG, c5sig, Signal.isExpired,
      computeComposite, weightedSum, totalWeight, signalWeight,
      SIGNAL_WEIGHTS_flow_toxicity, regimeModifier_unknown,
      directionMult, round4, roundHalfEven, habs, List.cons_ne_nil,
      Composite.mk.injEq, AggMarketState.mk.injEq, max_def, min_def]
  exact ⟨hrun,
    C5_ttl_exclusion.2 AGGREGATOR_CONFIG 50 MarketRegime.unknown ("M1")
      { active := [], lastPub := none } c5sig _ _ _ hrun⟩

/-! ## Claim C8 -/

/-- None of the `update_from_*` methods touches `previous_regime`. -/
theorem regimeUpdate_previous (st : RegimeMarketState) (now : ℚ) (m : RegimeMsg) :
    (regimeUpdate st now m).previous_regime = st.previous_regime := by
  cases m with
  | delta sideYes qty => simp [regimeUpdate, RegimeMarketState.updateFromDelta]
  | trade p => simp [regimeUpdate, RegimeMarketState.updateFromTrade]
  | ticker p => cases p <;> simp [regimeUpdate, RegimeMarketState.updateFromTicker]

theorem regimeStep_cool {cfg : RegimeConfig} {k : String}
    {st : RegimeDetectorState} {now : ℚ} {m : RegimeMsg}
    (h : now - st.lastPublish.getD 0 < cfg.publish_interval) :
    regimeStep cfg k st now m =
      ({ market := regimeUpdate st.market now m, lastPublish := st.lastPublish },
        [], none) := by
  simp only [regimeStep, if_pos h]

theorem regimeStep_change {cfg : RegimeConfig} {k : String}
    {st : RegimeDetectorState} {now : ℚ} {m : RegimeMsg}
    (h : ¬ (now - st.lastPublish.getD 0 < cfg.publish_interval))
    (hne : (regimeUpdate st.market now m).classify cfg now ≠
      (regimeUpdate st.market now m).previous_regime) :
    regimeStep cfg k st now m =
      ({ market := { regimeUpdate st.market now m with
            previous_regime := (regimeUpdate st.market now m).classify cfg now },
          lastPublish := some now },
        [createRegimeSignal k ((regimeUpdate st.market now m).classify cfg now)],
        some ((regimeUpdate st.market now m).classify cfg now)) := by
  simp only [regimeStep, if_neg h, if_pos hne]

theorem regimeStep_same {cfg : RegimeConfig} {k : String}
    {st : RegimeDetectorState} {now : ℚ} {m : RegimeMsg}
    (h : ¬ (now - st.lastPublish.getD 0 < cfg.publish_interval))
    (heq : ¬ ((regimeUpdate st.market now m).classify cfg now ≠
      (regimeUpdate st.market now m).previous_regime)) :
    regimeStep cfg k st now m =
      ({ market := regimeUpdate st.market now m, lastPublish := some now },
        [], some ((regimeUpdate st.market now m).classify cfg now)) := by
  simp only [regimeStep, if_neg h, if_neg heq]

/-- From a state already in regime `r`, a stream whose classifications all
yield `r` emits nothing and leaves the recorded regime at `r`. -/
theorem runRegime_no_emit (cfg : RegimeConfig) (ticker : String)
    (r : MarketRegime) :
    ∀ (msgs : List (ℚ × RegimeMsg)) (st : RegimeDetectorState),
      st.market.previous_regime = r →
      (∀ o ∈ (runRegime cfg ticker st msgs).2.2, ∀ ρ, o = some ρ → ρ = r) →
      (runRegime cfg ticker st msgs).2.1 = [] := by
  intro msgs
  induction msgs with
  | nil =>
    intro st hprev htr
    rfl
  | cons nm ms ih =>
    intro st hprev htr
    by_cases hcool : nm.1 - st.lastPublish.getD 0 < cfg.publish_interval
    · have hstep := regimeStep_cool (k := ticker) (m := nm.2) hcool
      simp only [runRegime, hstep] at htr ⊢
      refine ih _ ?_ ?_
      · rw [regimeUpdate_previous]
        exact hprev
      · intro o ho ρ hρ
        exact htr o (List.mem_cons_of_mem _ ho) ρ hρ
    · have hprev2 : (regimeUpdate st.market nm.1 nm.2).previous_regime = r := by
        rw [regimeUpdate_previous]
        exact hprev
      by_cases hne : (regimeUpdate st.market nm.1 nm.2).classify cfg nm.1 ≠
          (regimeUpdate st.market nm.1 nm.2).previous_regime
      · exfalso
        have hstep := regimeStep_change (k := ticker) hcool hne
        have hcls : ((runRegime cfg ticker st (nm :: ms)).2.2) =
            some ((regimeUpdate st.market nm.1 nm.2).classify cfg nm.1) ::
              (runRegime cfg ticker
                ({ market := { regimeUpdate st.market nm.1 nm.2 with
                      previous_regime :=
                        (regimeUpdate st.market nm.1 nm.2).classify cfg nm.1 },
                    lastPublish := some nm.1 }) ms).2.2 := by
          simp only [runRegime, hstep]
        have := htr _ (hcls ▸ List.mem_cons_self _ _) _ rfl
        rw [hprev2] at hne
        exact hne this
      · have hstep := regimeStep_same (k := ticker) hcool hne
        simp only [runRegime, hstep] at htr ⊢
        refine ih _ hprev2 ?_
        intro o ho ρ hρ
        exact htr o (List.mem_cons_of_mem _ ho) ρ hρ

/-- From any state, a stream whose classifications all yield `r` emits at
most one signal, and any emitted signal is the `regime_change` signal for
`r`. -/
theorem runRegime_le_one (cfg : RegimeConfig) (ticker : String)
    (r : MarketRegime) :
    ∀ (msgs : List (ℚ × RegimeMsg)) (st : RegimeDetectorState),
      (∀ o ∈ (runRegime cfg ticker st msgs).2.2, ∀ ρ, o = some ρ → ρ = r) →
      (runRegime cfg ticker st msgs).2.1.length ≤ 1 ∧
      ∀ s ∈ (runRegime cfg ticker st msgs).2.1, s = createRegimeSignal ticker r := by
  intro msgs
  induction msgs with
  | nil =>
    intro st htr
    exact ⟨by norm_num [runRegime], by intro s hs; exact absurd hs (by simp [runRegime])⟩
  | cons nm ms ih =>
    intro st htr
    by_cases hcool : nm.1 - st.lastPublish.getD 0 < cfg.publish_interval
    · have hstep := regimeStep_cool (k := ticker) (m := nm.2) hcool
      simp only [runRegime, hstep] at htr ⊢
      simp only [List.nil_append]
      refine ih _ ?_
      intro o ho ρ hρ
      exact htr o (List.mem_cons_of_mem _ ho) ρ hρ
    · by_cases hne : (regimeUpdate st.market nm.1 nm.2).classify cfg nm.1 ≠
          (regimeUpdate st.market nm.1 nm.2).previous_regime
      · have hstep := regimeStep_change (k := ticker) hcool hne
        simp only [runRegime, hstep] at htr ⊢
        have hcr : (regimeUpdate st.market nm.1 nm.2).classify cfg nm.1 = r :=
          htr _ (List.mem_cons_self _ _) _ rfl
        have hrest : (runRegime cfg ticker
            ({ market := { regimeUpdate st.market nm.1 nm.2 with
                  previous_regime :=
                    (regimeUpdate st.market nm.1 nm.2).classify cfg nm.1 },
                lastPublish := some nm.1 }) ms).2.1 = [] := by
          refine runRegime_no_emit cfg ticker r ms _ ?_ ?_
          · exact hcr
          · intro o ho ρ hρ
            exact htr o (List.mem_cons_of_mem _ ho) ρ hρ
        rw [hrest]
        constructor
        · simp
        · intro s hs
          simp only [List.append_nil, List.mem_singleton] at hs
          rw [hs, hcr]
      · have hstep := regimeStep_same (k := ticker) hcool hne
        simp only [runRegime, hstep] at htr ⊢
        simp only [List.nil_append]
        refine ih _ ?_
        intro o ho ρ hρ
        exact htr o (List.mem_cons_of_mem _ ho) ρ hρ

/-- C8: on any input stream for one market whose every performed
classification yields the same regime `r`, the detector emits at most one
`regime_change` signal, and any emitted signal has direction `neutral` and
urgency `immediate` exactly when `r` is `informed`, else `background`. -/
theorem C8_regime_change_emission :
    ∀ (cfg : RegimeConfig) (ticker : String) (r : MarketRegime)
      (st : RegimeDetectorState) (msgs : List (ℚ × RegimeMsg)),
      (∀ o ∈ (runRegime cfg ticker st msgs).2.2, ∀ ρ, o = some ρ → ρ = r) →
      (runRegime cfg ticker st msgs).2.1.length ≤ 1 ∧
      (∀ s ∈ (runRegime cfg ticker st msgs).2.1,
        s.signal_type = "regime_change" ∧
        s.direction = SignalDirection.neutral ∧
        (s.urgency = SignalUrgency.immediate ↔ r = MarketRegime.informed)) := by
  intro cfg ticker r st msgs htr
  obtain ⟨hlen, hmem⟩ := runRegime_le_one cfg ticker r msgs st htr
  refine ⟨hlen, ?_⟩
  intro s hs
  rw [hmem s hs]
  refine ⟨rfl, rfl, ?_⟩
  by_cases hr : r = MarketRegime.informed
  · simp [createRegimeSignal, hr]
  · simp only [createRegimeSignal, if_neg hr]
    constructor
    · intro h
      exact absurd h (by decide)
    · intro h
      exact absurd h hr

/-- Witness for C8: a single trade message at `now = 100` classifies the
market as `quiet` (the only classification in the trace), and the run emits
at most one signal, each with the claimed shape. -/
theorem C8_witness :
    (runRegime REGIME_CONFIG ("M1") {} [(100, RegimeMsg.trade 50)]).2.2 =
      [some MarketRegime.quiet] ∧
    (∀ o ∈ (runRegime REGIME_CONFIG ("M1") {} [(100, RegimeMsg.trade 50)]).2.2,
      ∀ ρ, o = some ρ → ρ = MarketRegime.quiet) ∧
    (runRegime REGIME_CONFIG ("M1") {} [(100, RegimeMsg.trade 50)]).2.1.length ≤ 1 ∧
    (∀ s ∈ (runRegime REGIME_CONFIG ("M1") {} [(100, RegimeMsg.trade 50)]).2.1,
      s.signal_type = "regime_change" ∧
      s.direction = SignalDirection.neutral ∧
      (s.urgency = SignalUrgency.immediate ↔
        MarketRegime.quiet = MarketRegime.informed)) := by
  have htrace : (runRegime REGIME_CONFIG ("M1") {}
      [(100, RegimeMsg.trade 50)]).2.2 = [some MarketRegime.quiet] := by
    norm_num [runRegime, regimeStep, regimeUpdate, REGIME_CONFIG,
      RegimeMarketState.updateFromTrade, RegimeMarketState.classify,
      RegimeMarketState.tradeRate, RegimeMarketState.messageRate,
      RegimeMarketState.depthImbalance, dequeAppend]
    split <;> rfl
  have htr : ∀ o ∈ (runRegime REGIME_CONFIG ("M1") {}
      [(100, RegimeMsg.trade 50)]).2.2, ∀ ρ, o = some ρ →
      ρ = MarketRegime.quiet := by
    rw [htrace]
    intro o ho ρ hρ
    rw [List.mem_singleton.mp ho] at hρ
    exact (Option.some.inj hρ).symm
  exact ⟨htrace, htr,
    (C8_regime_change_emission REGIME_CONFIG ("M1") MarketRegime.quiet {}
      [(100, RegimeMsg.trade 50)] htr).1,
    (C8_regime_change_emission REGIME_CONFIG ("M1") MarketRegime.quiet {}
      [(100, RegimeMsg.trade 50)] htr).2⟩

end KASS
